import Mathlib

/-!
Shallow embedding of the OpenClaw Rate Limit Manager core
(WindowTracker, RequestQueue, LimitStorage, RateLimitManager,
PatternDetector persistence) and proofs about the frozen claims.

Modelling conventions:
* timestamps and durations are naturals, in milliseconds;
* SQL `NULL`-able integer columns are `Option Nat`; JavaScript truthiness
  of a number (`null`/`0` falsy) is modelled explicitly where the source
  relies on it (`limits[field] || null`, `window.limit_requests && ...`);
* `randomUUID()` identifiers are modelled as caller-supplied fresh naturals;
* the SQLite tables are Lean lists; each prepared statement is translated
  to the corresponding pure list operation;
* percentage values are rationals.
-/

namespace RLM

/-- Window horizon ("window type"): per_minute, per_hour, per_day. -/
inductive WType
  | per_minute
  | per_hour
  | per_day
deriving DecidableEq, Repr

/-- `windowDurations` from the WindowTracker constructor, in milliseconds. -/
def WType.duration : WType → Nat
  | .per_minute => 60 * 1000
  | .per_hour => 60 * 60 * 1000
  | .per_day => 24 * 60 * 60 * 1000

/-- One row of the `rate_limit_windows` table. -/
structure Window where
  wid : Nat
  agent_wallet : String
  provider : String
  model : Option String
  wtype : WType
  window_start : Nat
  window_end : Nat
  request_count : Nat
  token_count : Nat
  limit_requests : Option Nat
  limit_tokens : Option Nat
  is_active : Bool
  last_updated : Nat
deriving DecidableEq, Repr

/-- Result record of `checkWindowLimitDetailed` / `wouldExceedLimit`. -/
structure CheckResult where
  exceeded : Bool
  current : Nat
  limit : Nat
  percentUsed : ℚ
deriving DecidableEq, Repr

/-- JavaScript truthiness test `limit && count >= limit` for a nullable
numeric column: `null` and `0` are falsy. -/
def limitHit (limit : Option Nat) (count : Nat) : Bool :=
  match limit with
  | none => false
  | some l => (l != 0) && decide (l ≤ count)

/-- `WindowTracker.checkWindowLimitDetailed`. -/
def checkWindowLimitDetailed (w : Window) : CheckResult :=
  let requestExceeded := limitHit w.limit_requests w.request_count
  let tokenExceeded := limitHit w.limit_tokens w.token_count
  let exceeded := requestExceeded || tokenExceeded
  let current := w.request_count
  let limit := w.limit_requests.getD 0
  let percentUsed : ℚ := if 0 < limit then ((current : ℚ) / (limit : ℚ)) * 100 else 0
  { exceeded := exceeded, current := current, limit := limit, percentUsed := percentUsed }

/-- The five nullable ceilings of a limit configuration (a
`rate_limit_configs` row, or a built-in default entry). -/
structure Limits where
  requests_per_minute : Option Nat
  requests_per_hour : Option Nat
  requests_per_day : Option Nat
  tokens_per_minute : Option Nat
  tokens_per_day : Option Nat
deriving DecidableEq, Repr

/-- JavaScript `v || null` on a nullable number: `0` collapses to `null`. -/
def jsOrNull (v : Option Nat) : Option Nat :=
  match v with
  | some 0 => none
  | x => x

/-- `WindowTracker.getLimitForWindowType`.  `wantTokens = true` corresponds
to `limitType === 'tokens'`.  There is no `tokens_per_hour` column, so that
lookup yields `undefined`, hence `null`. -/
def getLimitForWindowType (limits : Limits) (wt : WType) (wantTokens : Bool) : Option Nat :=
  jsOrNull (match wt, wantTokens with
    | .per_minute, false => limits.requests_per_minute
    | .per_hour, false => limits.requests_per_hour
    | .per_day, false => limits.requests_per_day
    | .per_minute, true => limits.tokens_per_minute
    | .per_hour, true => none
    | .per_day, true => limits.tokens_per_day)

/-- Built-in default table, anthropic free row. -/
def anthropicFree : Limits :=
  { requests_per_minute := some 50, requests_per_hour := none,
    requests_per_day := some 1000, tokens_per_minute := some 40000,
    tokens_per_day := some 300000 }

/-- Built-in default table, anthropic pro row. -/
def anthropicPro : Limits :=
  { requests_per_minute := some 1000, requests_per_hour := none,
    requests_per_day := some 10000, tokens_per_minute := some 80000,
    tokens_per_day := some 2500000 }

/-- Built-in default table, openai free row. -/
def openaiFree : Limits :=
  { requests_per_minute := some 60, requests_per_hour := none,
    requests_per_day := some 200, tokens_per_minute := some 40000,
    tokens_per_day := none }

/-- Built-in default table, openai pro row. -/
def openaiPro : Limits :=
  { requests_per_minute := some 500, requests_per_hour := none,
    requests_per_day := some 10000, tokens_per_minute := some 150000,
    tokens_per_day := none }

/-- Built-in default table, google free row. -/
def googleFree : Limits :=
  { requests_per_minute := some 60, requests_per_hour := none,
    requests_per_day := some 1500, tokens_per_minute := none,
    tokens_per_day := none }

/-- Built-in default table, google pro row. -/
def googlePro : Limits :=
  { requests_per_minute := some 1000, requests_per_hour := none,
    requests_per_day := some 15000, tokens_per_minute := none,
    tokens_per_day := none }

/-- `WindowTracker.getDefaultLimits`: `defaults[provider]?.[tier] ||
defaults.anthropic.free`.  An unknown provider (or tier) silently falls
back to the anthropic free row. -/
def getDefaultLimits (provider tier : String) : Limits :=
  let sel : Option Limits :=
    if provider = "anthropic" then
      (if tier = "free" then some anthropicFree
       else if tier = "pro" then some anthropicPro else none)
    else if provider = "openai" then
      (if tier = "free" then some openaiFree
       else if tier = "pro" then some openaiPro else none)
    else if provider = "google" then
      (if tier = "free" then some googleFree
       else if tier = "pro" then some googlePro else none)
    else none
  sel.getD anthropicFree

/-- One row of the `agent_limit_quotas` table. -/
structure QuotaRow where
  agent_wallet : String
  tier : String
  requests_per_minute : Int
  can_queue : Bool
  max_queue_size : Nat
  auto_learning : Bool
  custom_limits : Bool
  priority_queuing : Bool
  paid_until : Option Nat
deriving DecidableEq, Repr

/-- The row inserted by `LimitStorage.initializeQuota` for a new agent. -/
def defaultQuotaRow (wallet : String) : QuotaRow :=
  { agent_wallet := wallet, tier := "free", requests_per_minute := 100,
    can_queue := false, max_queue_size := 0, auto_learning := false,
    custom_limits := false, priority_queuing := false, paid_until := none }

/-- The record returned by `LimitStorage.checkQuotaAvailable`. -/
structure QuotaInfo where
  available : Bool
  tier : String
  can_queue : Bool
  max_queue_size : Nat
  auto_learning : Bool
  custom_limits : Bool
  priority_queuing : Bool
  requests_per_minute : Int
  paid_until : Option Nat
deriving DecidableEq, Repr

/-- `LimitStorage.checkQuotaAvailable`.  Pro status requires
`tier === 'pro'`, a non-null `paid_until`, and `paid_until` strictly in
the future; `available` is the literal constant `true`. -/
def checkQuotaAvailable (q : QuotaRow) (now : Nat) : QuotaInfo :=
  let isPro : Bool := (q.tier == "pro") && (match q.paid_until with
    | some p => decide (now < p)
    | none => false)
  if isPro then
    { available := true, tier := "pro", can_queue := q.can_queue,
      max_queue_size := q.max_queue_size, auto_learning := q.auto_learning,
      custom_limits := q.custom_limits, priority_queuing := q.priority_queuing,
      requests_per_minute := q.requests_per_minute, paid_until := q.paid_until }
  else
    { available := true, tier := "free", can_queue := false,
      max_queue_size := 0, auto_learning := false,
      custom_limits := false, priority_queuing := false,
      requests_per_minute := q.requests_per_minute, paid_until := q.paid_until }

/-- Queue entry status. -/
inductive QStatus
  | pending
  | processing
  | completed
  | failed
deriving DecidableEq, Repr

/-- One row of the `request_queue` table.  The serialized
`request_data` JSON payload is not modelled (no claim reads it);
`queue_id` is the `randomUUID()` value, modelled as a fresh natural. -/
structure QueueEntry where
  queue_id : Nat
  agent_wallet : String
  provider : String
  model : Option String
  priority : Nat
  retry_count : Nat
  max_retries : Nat
  status : QStatus
  queued_at : Nat
  processed_at : Option Nat
  error : Option String
deriving DecidableEq, Repr

/-- Event kinds of the `rate_limit_events` table. -/
inductive EvKind
  | allowed
  | warned
  | blocked
  | queued
deriving DecidableEq, Repr

/-- One row of the `rate_limit_events` table. -/
structure Event where
  agent_wallet : String
  provider : String
  model : Option String
  event_type : EvKind
  window_type : Option WType
  current_count : Option Nat
  limit_value : Option Nat
  percent_used : Option ℚ
  request_id : Option String
  was_queued : Bool
  queue_time_ms : Option Nat
  pattern_detected : Option String
deriving DecidableEq, Repr

/-- One row of the `rate_limit_configs` table. -/
structure LimitCfg where
  provider : String
  model : Option String
  tier : String
  limits : Limits
deriving DecidableEq, Repr

/-- The durable store: the SQLite tables as lists, plus fresh-id counters
for auto-increment window ids and for `randomUUID()` queue ids. -/
structure DB where
  windows : List Window
  nextWid : Nat
  queue : List QueueEntry
  nextQid : Nat
  events : List Event
  quotas : List QuotaRow
  configs : List LimitCfg
deriving DecidableEq, Repr

/-- `LimitStorage.getQuota`: look the wallet up; a missing row is lazily
initialised by `initializeQuota`, which amounts to returning the default
row (no claim observes the inserted row itself). -/
def getQuota (db : DB) (wallet : String) : QuotaRow :=
  (db.quotas.find? (fun q => q.agent_wallet == wallet)).getD (defaultQuotaRow wallet)

/-- `WindowTracker.getLimits`: agent tier from `checkQuotaAvailable`, then
model-specific config row, then provider-wide (`model IS NULL`) row, then
the built-in default table. -/
def getLimits (db : DB) (agentWallet provider : String) (model : Option String)
    (now : Nat) : Limits :=
  let tier := (checkQuotaAvailable (getQuota db agentWallet) now).tier
  let modelCfg : Option LimitCfg :=
    match model with
    | some m =>
      db.configs.find? (fun c => c.provider == provider && c.model == some m && c.tier == tier)
    | none => none
  let cfg : Option LimitCfg :=
    match modelCfg with
    | some c => some c
    | none =>
      db.configs.find? (fun c => c.provider == provider && c.model == none && c.tier == tier)
  match cfg with
  | some c => c.limits
  | none => getDefaultLimits provider tier

/-- Key match of a window row against
`(agent_wallet, provider, model, window_type)`; `model` matches with the
SQL `(model = ? OR (model IS NULL AND ? IS NULL))` semantics. -/
def Window.keyMatch (w : Window) (agent provider : String) (model : Option String)
    (wt : WType) : Bool :=
  w.agent_wallet == agent && w.provider == provider && w.model == model && w.wtype == wt

/-- One fold step of the `ORDER BY window_start DESC LIMIT 1` selection. -/
def pickStep (acc : Option Window) (w : Window) : Option Window :=
  match acc with
  | none => some w
  | some b => if b.window_start < w.window_start then some w else some b

/-- `ORDER BY window_start DESC LIMIT 1` over a result set (first row wins
a tie, as some row must). -/
def pickLatest (ws : List Window) : Option Window :=
  ws.foldl pickStep none

/-- The active rows for a key (the tracker query filters only on
`is_active = 1`, not on `window_end`). -/
def activeFor (db : DB) (agent provider : String) (model : Option String)
    (wt : WType) : List Window :=
  db.windows.filter (fun w => w.is_active && w.keyMatch agent provider model wt)

/-- `WindowTracker.createWindow`: resolve limits, then insert a fresh
active window `[now, now + duration)` with zero counts. -/
def createWindow (db : DB) (agent provider : String) (model : Option String)
    (wt : WType) (now : Nat) : Window × DB :=
  let limits := getLimits db agent provider model now
  let w : Window :=
    { wid := db.nextWid, agent_wallet := agent, provider := provider, model := model,
      wtype := wt, window_start := now, window_end := now + wt.duration,
      request_count := 0, token_count := 0,
      limit_requests := getLimitForWindowType limits wt false,
      limit_tokens := getLimitForWindowType limits wt true,
      is_active := true, last_updated := now }
  (w, { db with windows := db.windows ++ [w], nextWid := db.nextWid + 1 })

/-- `WindowTracker.getCurrentWindow`: the newest active row for the key,
creating one when none exists. -/
def getCurrentWindow (db : DB) (agent provider : String) (model : Option String)
    (wt : WType) (now : Nat) : Window × DB :=
  match pickLatest (activeFor db agent provider model wt) with
  | some w => (w, db)
  | none => createWindow db agent provider model wt now

/-- `WindowTracker.rotateWindow`: deactivate the old row, then create a
fresh window for the same key. -/
def rotateWindow (db : DB) (old : Window) (now : Nat) : Window × DB :=
  let db1 : DB := { db with windows := db.windows.map (fun w =>
    if w.wid = old.wid then { w with is_active := false } else w) }
  createWindow db1 old.agent_wallet old.provider old.model old.wtype now

/-- `WindowTracker.updateWindowCounts`: `request_count += 1`,
`token_count += tokens`, `last_updated = CURRENT_TIMESTAMP`. -/
def updateWindowCounts (db : DB) (wid : Nat) (tokens now : Nat) : DB :=
  { db with windows := db.windows.map (fun w =>
      if w.wid = wid then
        { w with request_count := w.request_count + 1,
                 token_count := w.token_count + tokens,
                 last_updated := now }
      else w) }

/-- `WindowTracker.wouldExceedLimit` (the `tier` argument of the source is
unused by its body; limits are resolved through `getLimits`).  Rotation
happens only when `now` is strictly past `window_end`. -/
def wouldExceedLimit (db : DB) (agent provider : String) (model : Option String)
    (wt : WType) (now : Nat) : CheckResult × DB :=
  let p := getCurrentWindow db agent provider model wt now
  if p.1.window_end < now then
    let db2 := (rotateWindow p.2 p.1 now).2
    let p2 := getCurrentWindow db2 agent provider model wt now
    (checkWindowLimitDetailed p2.1, p2.2)
  else
    (checkWindowLimitDetailed p.1, p.2)

/-- `WindowTracker.incrementWindow`. -/
def incrementWindow (db : DB) (agent provider : String) (model : Option String)
    (wt : WType) (now tokens : Nat) : DB :=
  let p := getCurrentWindow db agent provider model wt now
  if p.1.window_end < now then
    let db2 := (rotateWindow p.2 p.1 now).2
    let p2 := getCurrentWindow db2 agent provider model wt now
    updateWindowCounts p2.2 p2.1.wid tokens now
  else
    updateWindowCounts p.2 p.1.wid tokens now

/-- `WindowTracker.updateTokenCount`: raise `token_count` (and
`last_updated`) of the current window only.  No rotation check is made;
the source's `!window` guard is dead since `getCurrentWindow` creates a
window when none exists. -/
def updateTokenCount (db : DB) (agent provider : String) (model : Option String)
    (wt : WType) (now tokens : Nat) : DB :=
  let p := getCurrentWindow db agent provider model wt now
  { p.2 with windows := p.2.windows.map (fun w =>
      if w.wid = p.1.wid then
        { w with token_count := w.token_count + tokens, last_updated := now }
      else w) }

/-- `RequestQueue` configuration constants. -/
def defaultPriority : Nat := 5

/-- `RequestQueue.defaultMaxRetries`. -/
def defaultMaxRetries : Nat := 3

/-- `RequestQueue.maxQueueAge`: 30 minutes in milliseconds. -/
def maxQueueAge : Nat := 30 * 60 * 1000

/-- `RequestQueue.getQueueSize`: pending entries of the wallet. -/
def getQueueSize (db : DB) (wallet : String) : Nat :=
  (db.queue.filter (fun e => e.agent_wallet == wallet && e.status == QStatus.pending)).length

/-- The two errors `RequestQueue.enqueue` can throw. -/
inductive EnqueueError
  | queueDisabled
  | queueFull
deriving DecidableEq, Repr

/-- `RequestQueue.enqueue`: tier gate, then capacity gate, then insert a
fresh pending entry. -/
def enqueue (db : DB) (agentWallet provider : String) (model : Option String)
    (priority : Option Nat) (now : Nat) : Except EnqueueError (Nat × DB) :=
  let quota := checkQuotaAvailable (getQuota db agentWallet) now
  if !quota.can_queue then
    .error .queueDisabled
  else
    let currentSize := getQueueSize db agentWallet
    if quota.max_queue_size ≤ currentSize then
      .error .queueFull
    else
      let queueId := db.nextQid
      let entry : QueueEntry :=
        { queue_id := queueId, agent_wallet := agentWallet, provider := provider,
          model := model, priority := priority.getD defaultPriority,
          retry_count := 0, max_retries := defaultMaxRetries,
          status := .pending, queued_at := now, processed_at := none, error := none }
      .ok (queueId, { db with queue := db.queue ++ [entry], nextQid := db.nextQid + 1 })

/-- `RequestQueue.complete`: terminal transition; a failure increments
`retry_count`. -/
def complete (db : DB) (queueId : Nat) (success : Bool) (error : Option String)
    (now : Nat) : DB :=
  let status := if success then QStatus.completed else QStatus.failed
  let incrementRetry := if success then 0 else 1
  { db with queue := db.queue.map (fun e =>
      if e.queue_id = queueId then
        { e with status := status, error := error,
                 retry_count := e.retry_count + incrementRetry,
                 processed_at := some now }
      else e) }

/-- Dequeue candidate filter: `status = 'pending' AND retry_count <
max_retries`, optionally restricted to one wallet. -/
def isCandidate (flt : Option String) (e : QueueEntry) : Bool :=
  e.status == QStatus.pending && decide (e.retry_count < e.max_retries) &&
    (match flt with
     | some w => e.agent_wallet == w
     | none => true)

/-- Strictly better under `ORDER BY priority DESC, queued_at ASC`. -/
def betterQ (a b : QueueEntry) : Bool :=
  decide (b.priority < a.priority) ||
    (a.priority == b.priority && decide (a.queued_at < b.queued_at))

/-- One fold step of the `LIMIT 1` selection. -/
def selStep (acc : Option QueueEntry) (e : QueueEntry) : Option QueueEntry :=
  match acc with
  | none => some e
  | some b => if betterQ e b then some e else some b

/-- `ORDER BY priority DESC, queued_at ASC LIMIT 1` over a candidate
list (first row wins remaining ties). -/
def selectBest (es : List QueueEntry) : Option QueueEntry :=
  es.foldl selStep none

lemma selStep_mem (acc : Option QueueEntry) (e x : QueueEntry)
    (h : selStep acc e = some x) : x = e ∨ acc = some x := by
  cases acc with
  | none =>
    left
    simpa [selStep] using h.symm
  | some b =>
    simp only [selStep] at h
    by_cases hb : betterQ e b
    · rw [if_pos hb] at h
      left
      exact (Option.some.injEq _ _ ▸ h).symm
    · rw [if_neg hb] at h
      right
      rw [h]

lemma selectBest_go_mem (es : List QueueEntry) :
    ∀ (acc : Option QueueEntry) (e : QueueEntry),
      es.foldl selStep acc = some e → e ∈ es ∨ acc = some e := by
  induction es with
  | nil =>
    intro acc e h
    right
    simpa using h
  | cons a t ih =>
    intro acc e h
    rw [List.foldl_cons] at h
    rcases ih (selStep acc a) e h with h' | h'
    · exact Or.inl (List.mem_cons_of_mem _ h')
    · rcases selStep_mem acc a e h' with h'' | h''
      · exact Or.inl (by rw [h'']; exact List.mem_cons_self a t)
      · exact Or.inr h''

lemma selectBest_mem (es : List QueueEntry) (e : QueueEntry)
    (h : selectBest es = some e) : e ∈ es := by
  rcases selectBest_go_mem es none e h with h' | h'
  · exact h'
  · exact absurd h' (by simp)

lemma countP_lt_of_destroyed {α : Type} (p q : α → Bool) (l : List α)
    (hle : ∀ x ∈ l, q x = true → p x = true) (e : α) (he : e ∈ l)
    (hpe : p e = true) (hqe : q e = false) :
    l.countP q < l.countP p := by
  induction l with
  | nil => simp at he
  | cons a t ih =>
    have hmono : t.countP q ≤ t.countP p :=
      List.countP_mono_left (fun x hx h => hle x (List.mem_cons_of_mem _ hx) h)
    rcases List.mem_cons.mp he with rfl | he'
    · simp only [List.countP_cons, hpe, hqe]
      simp only [Bool.false_eq_true, if_false, if_true, Nat.add_zero]
      omega
    · have hstep : t.countP q < t.countP p :=
        ih (fun x hx => hle x (List.mem_cons_of_mem _ hx)) he'
      simp only [List.countP_cons]
      have hif : (if q a = true then 1 else 0) ≤ (if p a = true then 1 else 0) := by
        by_cases hqa : q a = true
        · rw [if_pos hqa, if_pos (hle a (List.mem_cons_self a t) hqa)]
        · rw [if_neg hqa]
          exact Nat.zero_le _
      omega

/-- Number of dequeue candidates; the termination measure of `dequeue`. -/
def candCount (db : DB) (flt : Option String) : Nat :=
  (db.queue.filter (isCandidate flt)).length

lemma candCount_complete_lt (db : DB) (flt : Option String) (e : QueueEntry)
    (now : Nat) (he : e ∈ db.queue) (hce : isCandidate flt e = true) :
    candCount (complete db e.queue_id false (some "Request expired in queue") now) flt
      < candCount db flt := by
  unfold candCount complete
  simp only [← List.countP_eq_length_filter, List.countP_map]
  refine countP_lt_of_destroyed _ _ _ ?_ e he hce ?_
  · intro x hx hqx
    simp only [Function.comp_apply] at hqx
    by_cases hid : x.queue_id = e.queue_id
    · rw [if_pos hid] at hqx
      simp [isCandidate] at hqx
    · rwa [if_neg hid] at hqx
  · simp only [Function.comp_apply, if_pos rfl]
    simp [isCandidate]

/-- `RequestQueue.dequeue`, fuelled.  The source recursion re-invokes
`dequeue` after failing an expired candidate; each such step strictly
decreases the candidate count (`candCount_complete_lt`), so the recursion
depth is bounded by `candCount + 1` and the fuelled body below, entered
with that much fuel (see `dequeue`), computes the source function
(`dequeueFuel_irrel`). -/
def dequeueFuel : Nat → DB → Option String → Nat → Option QueueEntry × DB
  | 0, db, _, _ => (none, db)
  | Nat.succ fuel, db, flt, now =>
    match selectBest (db.queue.filter (isCandidate flt)) with
    | none => (none, db)
    | some e =>
      if maxQueueAge < now - e.queued_at then
        dequeueFuel fuel (complete db e.queue_id false (some "Request expired in queue") now)
          flt now
      else
        (some e, { db with queue := db.queue.map (fun x =>
            if x.queue_id = e.queue_id then
              { x with status := .processing, processed_at := some now }
            else x) })

/-- `RequestQueue.dequeue`: pick the best candidate; an over-age entry is
failed with the expiry error and the next candidate is attempted;
otherwise mark it `processing` and return its pre-update row. -/
def dequeue (db : DB) (flt : Option String) (now : Nat) :
    Option QueueEntry × DB :=
  dequeueFuel (candCount db flt + 1) db flt now

lemma dequeueFuel_irrel (flt : Option String) (now : Nat) :
    ∀ (n : Nat) (m : Nat) (db : DB), candCount db flt < n → candCount db flt < m →
      dequeueFuel n db flt now = dequeueFuel m db flt now := by
  intro n
  induction n with
  | zero =>
    intro m db hn _
    omega
  | succ n ih =>
    intro m db hn hm
    rcases m with _ | m
    · omega
    · unfold dequeueFuel
      cases hsel : selectBest (db.queue.filter (isCandidate flt)) with
      | none => rfl
      | some e =>
        dsimp only
        split
        · have hmem := selectBest_mem _ _ hsel
          rcases List.mem_filter.mp hmem with ⟨he, hce⟩
          have hlt := candCount_complete_lt db flt e now he hce
          exact ih m _ (by omega) (by omega)
        · rfl

/-- JavaScript `v || null` on a nullable rational (`0` is falsy). -/
def jsOrNullQ (v : Option ℚ) : Option ℚ :=
  match v with
  | some x => if x = 0 then none else some x
  | none => none

/-- `LimitStorage.recordEvent`: append-only insert; the statement binds
`current_count || null`, `limit_value || null`, `percent_used || null`,
`queue_time_ms || null` and `was_queued ? 1 : 0`. -/
def recordEvent (db : DB) (e : Event) : DB :=
  { db with events := db.events ++ [{ e with
      current_count := jsOrNull e.current_count,
      limit_value := jsOrNull e.limit_value,
      percent_used := jsOrNullQ e.percent_used,
      queue_time_ms := jsOrNull e.queue_time_ms }] }

/-- The outcomes of `RateLimitManager.beforeProvider`: a normal return
(`allowed`) or one of the thrown errors. -/
inductive BeforeOutcome
  | allowed
  | queuedErr (queueId : Nat)
  | blockedErr
  | queueFullErr
  | queueDisabledErr
  | quotaExceededErr
deriving DecidableEq, Repr

/-- The `for (const windowType of windows)` loop of `beforeProvider`:
check minute, hour, day in order and stop at the first exceeded result. -/
def checkHorizons (db : DB) (agent provider : String) (model : Option String)
    (now : Nat) : Option (WType × CheckResult) × DB :=
  let p1 := wouldExceedLimit db agent provider model .per_minute now
  if p1.1.exceeded then (some (.per_minute, p1.1), p1.2) else
  let p2 := wouldExceedLimit p1.2 agent provider model .per_hour now
  if p2.1.exceeded then (some (.per_hour, p2.1), p2.2) else
  let p3 := wouldExceedLimit p2.2 agent provider model .per_day now
  if p3.1.exceeded then (some (.per_day, p3.1), p3.2) else
  (none, p3.2)

/-- JavaScript `requestData.priority || 5`. -/
def jsPriority (v : Option Nat) : Nat :=
  match v with
  | some 0 => 5
  | some n => n
  | none => 5

/-- `RateLimitManager.beforeProvider`.  The in-memory session roster and
the `_rate_limit_decision` attachment are host-side bookkeeping; the
attachment is represented by the `hasAllowedDecision` input of
`afterProvider`. -/
def beforeProvider (db : DB) (requestId provider : String) (model : Option String)
    (agentWallet : String) (priority : Option Nat) (now : Nat) :
    BeforeOutcome × DB :=
  let quota := checkQuotaAvailable (getQuota db agentWallet) now
  if !quota.available then
    (.quotaExceededErr, db)
  else
    let chk := checkHorizons db agentWallet provider model now
    match chk.1 with
    | some (wt, r) =>
      if quota.tier == "pro" && quota.can_queue then
        let queueSize := getQueueSize chk.2 agentWallet
        if quota.max_queue_size ≤ queueSize then
          (.queueFullErr, chk.2)
        else
          match enqueue chk.2 agentWallet provider model (some (jsPriority priority)) now with
          | .error .queueDisabled => (.queueDisabledErr, chk.2)
          | .error .queueFull => (.queueFullErr, chk.2)
          | .ok (qid, db2) =>
            let db3 := recordEvent db2
              { agent_wallet := agentWallet, provider := provider, model := model,
                event_type := .queued, window_type := some wt,
                current_count := some r.current, limit_value := some r.limit,
                percent_used := some r.percentUsed, request_id := some requestId,
                was_queued := true, queue_time_ms := none, pattern_detected := none }
            (.queuedErr qid, db3)
      else
        let db2 := recordEvent chk.2
          { agent_wallet := agentWallet, provider := provider, model := model,
            event_type := .blocked, window_type := some wt,
            current_count := some r.current, limit_value := some r.limit,
            percent_used := some r.percentUsed, request_id := some requestId,
            was_queued := false, queue_time_ms := none, pattern_detected := none }
        (.blockedErr, db2)
    | none =>
      let db2 := recordEvent chk.2
        { agent_wallet := agentWallet, provider := provider, model := model,
          event_type := .allowed, window_type := none,
          current_count := none, limit_value := none, percent_used := none,
          request_id := some requestId, was_queued := false,
          queue_time_ms := none, pattern_detected := none }
      let db3 := incrementWindow db2 agentWallet provider model .per_minute now 0
      let db4 := incrementWindow db3 agentWallet provider model .per_hour now 0
      let db5 := incrementWindow db4 agentWallet provider model .per_day now 0
      (.allowed, db5)

/-- The admit path of one drain step: mark the dequeued entry completed
(success, so no retry bump) and pre-increment the three horizons for the
entry's (tenant, provider, model) with zero tokens.  `db1` is the state
right after the dequeue. -/
def drainAdmit (db1 : DB) (q : QueueEntry) (now : Nat) : DB :=
  incrementWindow (incrementWindow (incrementWindow
    (complete (wouldExceedLimit db1 q.agent_wallet q.provider q.model .per_minute now).2
      q.queue_id true none now)
    q.agent_wallet q.provider q.model .per_minute now 0)
    q.agent_wallet q.provider q.model .per_hour now 0)
    q.agent_wallet q.provider q.model .per_day now 0

/-- The re-pend path of one drain step: `UPDATE request_queue SET
status = 'pending'` for the dequeued entry, touching no other column. -/
def drainRepend (db1 : DB) (q : QueueEntry) (now : Nat) : DB :=
  let db2 := (wouldExceedLimit db1 q.agent_wallet q.provider q.model .per_minute now).2
  { db2 with queue := db2.queue.map (fun x =>
      if x.queue_id = q.queue_id then { x with status := .pending } else x) }

/-- One pass of `RateLimitManager.processQueue`'s bounded loop: `fuel`
is `Math.min(5, queueSize)`.  The dequeue is global (`this.queue.dequeue()`
is called with no wallet argument); a re-pend breaks out of the loop. -/
def drainLoop (db : DB) (fuel now : Nat) : DB :=
  match fuel with
  | 0 => db
  | Nat.succ fuel =>
    let dq := dequeue db none now
    match dq.1 with
    | none => dq.2
    | some q =>
      if !(wouldExceedLimit dq.2 q.agent_wallet q.provider q.model
          .per_minute now).1.exceeded then
        drainLoop (drainAdmit dq.2 q now) fuel now
      else
        drainRepend dq.2 q now

/-- `RateLimitManager.processQueue`. -/
def processQueue (db : DB) (agentWallet : String) (now : Nat) : DB :=
  let queueSize := getQueueSize db agentWallet
  if queueSize = 0 then db
  else drainLoop db (min 5 queueSize) now

/-- `RateLimitManager.afterProvider`: nothing happens without an attached
allowed decision; otherwise the three horizons get the actual token usage
and, for a pro tenant with queuing, the queue is drained. -/
def afterProvider (db : DB) (provider : String) (model : Option String)
    (agentWallet : String) (hasAllowedDecision : Bool) (tokensUsed now : Nat) : DB :=
  if !hasAllowedDecision then db
  else
    let db1 := updateTokenCount db agentWallet provider model .per_minute now tokensUsed
    let db2 := updateTokenCount db1 agentWallet provider model .per_hour now tokensUsed
    let db3 := updateTokenCount db2 agentWallet provider model .per_day now tokensUsed
    let quota := checkQuotaAvailable (getQuota db3 agentWallet) now
    if quota.tier == "pro" && quota.can_queue then
      processQueue db3 agentWallet now
    else db3

/-- One row of the `usage_patterns` table. -/
structure PatternRow where
  pattern_id : Nat
  agent_wallet : Option String
  pattern_type : String
  provider : Option String
  model : Option String
  avg_requests_per_minute : Option Nat
  peak_requests_per_minute : Option Nat
  typical_window : Option String
  confidence : ℚ
  suggested_limit : Option Nat
  suggested_queue_size : Option Nat
  last_observed : Option Nat
  observation_count : Nat
deriving DecidableEq, Repr

/-- The fields of a detected pattern that `PatternDetector.storePattern`
binds into its INSERT. -/
structure PatternData where
  pattern_type : String
  avg_requests_per_minute : Option Nat
  peak_requests_per_minute : Option Nat
  typical_window : Option String
  confidence : ℚ
  suggested_limit : Option Nat
  suggested_queue_size : Option Nat
deriving DecidableEq, Repr

/-- `PatternDetector.storePattern`: a plain `INSERT INTO usage_patterns`
under `patternId = randomUUID()` (modelled as the caller-supplied fresh
`generatedId`); no `ON CONFLICT` clause.  Unbound columns take the schema
defaults (`observation_count` 1, `last_observed` NULL). -/
def storePattern (tbl : List PatternRow) (generatedId : Nat) (agentWallet : String)
    (p : PatternData) : List PatternRow :=
  tbl ++ [{ pattern_id := generatedId, agent_wallet := some agentWallet,
            pattern_type := p.pattern_type, provider := none, model := none,
            avg_requests_per_minute := jsOrNull p.avg_requests_per_minute,
            peak_requests_per_minute := jsOrNull p.peak_requests_per_minute,
            typical_window := p.typical_window, confidence := p.confidence,
            suggested_limit := jsOrNull p.suggested_limit,
            suggested_queue_size := jsOrNull p.suggested_queue_size,
            last_observed := none, observation_count := 1 }]

/-- The fields `LimitStorage.upsertPattern` binds. -/
structure UpsertPatternData where
  pattern_id : Nat
  agent_wallet : Option String
  pattern_type : String
  provider : Option String
  model : Option String
  avg_requests_per_minute : Option Nat
  peak_requests_per_minute : Option Nat
  typical_window : Option String
  confidence : Option ℚ
  suggested_limit : Option Nat
  suggested_queue_size : Option Nat
deriving DecidableEq, Repr

/-- `LimitStorage.upsertPattern`: `INSERT ... ON CONFLICT(pattern_id) DO
UPDATE` refreshing the metric fields, bumping `observation_count` and
`last_observed`.  `confidence || 0.5` is the bound default. -/
def upsertPattern (tbl : List PatternRow) (d : UpsertPatternData) (now : Nat) :
    List PatternRow :=
  let conf : ℚ := match jsOrNullQ d.confidence with
    | some c => c
    | none => 1/2
  if tbl.any (fun r => r.pattern_id == d.pattern_id) then
    tbl.map (fun r =>
      if r.pattern_id = d.pattern_id then
        { r with avg_requests_per_minute := jsOrNull d.avg_requests_per_minute,
                 peak_requests_per_minute := jsOrNull d.peak_requests_per_minute,
                 typical_window := d.typical_window, confidence := conf,
                 suggested_limit := jsOrNull d.suggested_limit,
                 suggested_queue_size := jsOrNull d.suggested_queue_size,
                 last_observed := some now,
                 observation_count := r.observation_count + 1 }
      else r)
  else
    tbl ++ [{ pattern_id := d.pattern_id, agent_wallet := d.agent_wallet,
              pattern_type := d.pattern_type, provider := d.provider,
              model := d.model,
              avg_requests_per_minute := jsOrNull d.avg_requests_per_minute,
              peak_requests_per_minute := jsOrNull d.peak_requests_per_minute,
              typical_window := d.typical_window, confidence := conf,
              suggested_limit := jsOrNull d.suggested_limit,
              suggested_queue_size := jsOrNull d.suggested_queue_size,
              last_observed := none, observation_count := 1 }]

/-! ### Concrete states used by witnesses and counterexamples. -/

/-- A pro-tier quota row with a far-future `paid_until`. -/
def proQuota (wallet : String) (mqs : Nat) : QuotaRow :=
  { agent_wallet := wallet, tier := "pro", requests_per_minute := -1,
    can_queue := true, max_queue_size := mqs, auto_learning := true,
    custom_limits := true, priority_queuing := true, paid_until := some 999999999 }

/-- A per-minute window at its request limit (50/50). -/
def w1c : Window :=
  { wid := 1, agent_wallet := "A", provider := "anthropic", model := none,
    wtype := .per_minute, window_start := 0, window_end := 100000,
    request_count := 50, token_count := 0, limit_requests := some 50,
    limit_tokens := some 40000, is_active := true, last_updated := 0 }

/-- An active but stale per-minute window (`window_end` = 1000). -/
def w2a : Window :=
  { wid := 1, agent_wallet := "A", provider := "anthropic", model := none,
    wtype := .per_minute, window_start := 0, window_end := 1000,
    request_count := 3, token_count := 5, limit_requests := some 50,
    limit_tokens := some 40000, is_active := true, last_updated := 0 }

/-- Store holding only the stale window `w2a`. -/
def db2a : DB :=
  { windows := [w2a], nextWid := 2, queue := [], nextQid := 0, events := [],
    quotas := [], configs := [] }

/-- A full (50/50) active window whose end is exactly 1000. -/
def w2b : Window := { w2a with request_count := 50 }

/-- Store holding only `w2b`. -/
def db2b : DB := { db2a with windows := [w2b] }

/-- Store for the queue-full pre-call: minute window at its limit, pro
tenant whose `max_queue_size` is 0. -/
def db3c : DB :=
  { windows := [w1c], nextWid := 2, queue := [], nextQid := 0, events := [],
    quotas := [proQuota "A" 0], configs := [] }

/-- A pending queue entry of tenant `A`. -/
def eA : QueueEntry :=
  { queue_id := 1, agent_wallet := "A", provider := "anthropic", model := none,
    priority := 5, retry_count := 0, max_retries := 3, status := .pending,
    queued_at := 500, processed_at := none, error := none }

/-- A higher-priority pending entry of tenant `B`. -/
def eB : QueueEntry :=
  { eA with queue_id := 2, agent_wallet := "B", priority := 9, queued_at := 600 }

/-- Store with `A`'s and `B`'s pending entries; `A` is pro. -/
def db4c : DB :=
  { windows := [], nextWid := 0, queue := [eA, eB], nextQid := 3, events := [],
    quotas := [proQuota "A" 100], configs := [] }

/-- `db4c` right after the global dequeue has marked `B`'s entry as
processing. -/
def db4c1 : DB :=
  { db4c with queue := [eA, { eB with status := .processing, processed_at := some 1000 }] }

/-- Store for a successful enqueue: pro tenant, empty queue. -/
def db5w : DB :=
  { windows := [], nextWid := 0, queue := [], nextQid := 7, events := [],
    quotas := [proQuota "A" 100], configs := [] }

/-- An expired pending entry (queued at 0, higher priority). -/
def e6old : QueueEntry :=
  { queue_id := 11, agent_wallet := "A", provider := "anthropic", model := none,
    priority := 9, retry_count := 0, max_retries := 3, status := .pending,
    queued_at := 0, processed_at := none, error := none }

/-- A fresh pending entry. -/
def e6new : QueueEntry :=
  { e6old with queue_id := 12, priority := 5, queued_at := 1900000 }

/-- Store with one expired and one fresh pending entry. -/
def db6w : DB :=
  { windows := [], nextWid := 0, queue := [e6old, e6new], nextQid := 13,
    events := [], quotas := [proQuota "A" 100], configs := [] }

/-- A fresh per-minute window with zero counts. -/
def w7 : Window := { w2a with request_count := 0, token_count := 0, window_end := 100000 }

/-- Store for the post-call drain counterexample: pro tenant, one pending
entry, fresh minute window. -/
def db7c : DB :=
  { windows := [w7], nextWid := 2, queue := [eA], nextQid := 3, events := [],
    quotas := [proQuota "A" 100], configs := [] }

/-- Store for the free-tenant post-call witness. -/
def db7w : DB :=
  { windows := [w7], nextWid := 2, queue := [], nextQid := 0, events := [],
    quotas := [], configs := [] }

/-- A detected burst pattern record. -/
def p0 : PatternData :=
  { pattern_type := "burst", avg_requests_per_minute := none,
    peak_requests_per_minute := none, typical_window := some "bursty",
    confidence := 7/10, suggested_limit := none, suggested_queue_size := some 25 }

/-- An upsert payload with `pattern_id` 5. -/
def u8 : UpsertPatternData :=
  { pattern_id := 5, agent_wallet := some "A", pattern_type := "burst",
    provider := none, model := none, avg_requests_per_minute := none,
    peak_requests_per_minute := some 12, typical_window := some "bursty",
    confidence := some (7/10), suggested_limit := some 14,
    suggested_queue_size := some 25 }

/-- A stored pattern row with `pattern_id` 5. -/
def r8 : PatternRow :=
  { pattern_id := 5, agent_wallet := some "A", pattern_type := "burst",
    provider := none, model := none, avg_requests_per_minute := none,
    peak_requests_per_minute := some 12, typical_window := some "bursty",
    confidence := 7/10, suggested_limit := some 14,
    suggested_queue_size := some 25, last_observed := none,
    observation_count := 1 }

/-- The empty store. -/
def db9c : DB :=
  { windows := [], nextWid := 0, queue := [], nextQid := 0, events := [],
    quotas := [], configs := [] }

/-! ### Generic list lemmas used throughout. -/

lemma map_id_of_fix {α : Type} (l : List α) (f : α → α) (h : ∀ x ∈ l, f x = x) :
    l.map f = l := by
  induction l with
  | nil => rfl
  | cons a t ih =>
    rw [List.map_cons, h a (List.mem_cons_self a t),
      ih (fun x hx => h x (List.mem_cons_of_mem _ hx))]

lemma filter_map_pres {α : Type} (l : List α) (f : α → α) (p : α → Bool)
    (hp : ∀ x, p (f x) = p x) : (l.map f).filter p = (l.filter p).map f := by
  induction l with
  | nil => rfl
  | cons a t ih =>
    rw [List.map_cons, List.filter_cons, List.filter_cons, hp a]
    by_cases h : p a
    · rw [if_pos h, if_pos h, List.map_cons, ih]
    · rw [if_neg h, if_neg h, ih]

lemma eq_of_filter_singleton {α : Type} {p : α → Bool} {l : List α} {w : α}
    (h : l.filter p = [w]) : ∀ x ∈ l, p x = true → x = w := by
  induction l with
  | nil => intro x hx; simp at hx
  | cons a t ih =>
    intro x hx hpx
    rw [List.filter_cons] at h
    by_cases ha : p a
    · rw [if_pos ha] at h
      rcases List.cons_eq_cons.mp h with ⟨rfl, ht⟩
      rcases List.mem_cons.mp hx with rfl | hx'
      · rfl
      · exact absurd (List.mem_filter.mpr ⟨hx', hpx⟩) (by rw [ht]; simp)
    · rw [if_neg ha] at h
      rcases List.mem_cons.mp hx with rfl | hx'
      · exact absurd hpx ha
      · exact ih h x hx' hpx

lemma sumProj_filter_map_pres (l : List Window) (f : Window → Window)
    (key : Window → Bool) (g : Window → Nat)
    (hk : ∀ x, key (f x) = key x) (hg : ∀ x, g (f x) = g x) :
    (((l.map f).filter key).map g).sum = ((l.filter key).map g).sum := by
  induction l with
  | nil => rfl
  | cons a t ih =>
    rw [List.map_cons, List.filter_cons, List.filter_cons, hk a]
    by_cases h : key a
    · rw [if_pos h, if_pos h, List.map_cons, List.map_cons, List.sum_cons,
        List.sum_cons, hg a, ih]
    · rw [if_neg h, if_neg h, ih]

lemma sumProj_filter_map_single (l : List Window) (f : Window → Window)
    (key : Window → Bool) (g : Window → Nat) (w : Window) (d : Nat)
    (hw : w ∈ l) (hnd : (l.map Window.wid).Nodup)
    (hother : ∀ x, x.wid ≠ w.wid → f x = x)
    (hk : key (f w) = key w) (hg : g (f w) = g w + d) :
    (((l.map f).filter key).map g).sum
      = ((l.filter key).map g).sum + (if key w then d else 0) := by
  induction l with
  | nil => simp at hw
  | cons a t ih =>
    rw [List.map_cons] at hnd
    have hnd' := hnd.of_cons
    have hahd := (List.nodup_cons.mp hnd).1
    rcases List.mem_cons.mp hw with rfl | hw'
    · have htfix : t.map f = t := by
        apply map_id_of_fix
        intro x hx
        apply hother
        intro hxw
        exact hahd (hxw ▸ List.mem_map_of_mem Window.wid hx)
      rw [List.map_cons, htfix, List.filter_cons, List.filter_cons, hk]
      by_cases h : key w
      · rw [if_pos h, if_pos h, List.map_cons, List.map_cons, List.sum_cons,
          List.sum_cons, hg, if_pos h]
        omega
      · rw [if_neg h, if_neg h, if_neg h, Nat.add_zero]
    · have haw : a.wid ≠ w.wid := by
        intro h
        exact hahd (h ▸ List.mem_map_of_mem Window.wid hw')
      rw [List.map_cons, hother a haw, List.filter_cons, List.filter_cons]
      by_cases h : key a
      · rw [if_pos h, if_pos h, List.map_cons, List.map_cons, List.sum_cons,
          List.sum_cons, ih hw' hnd']
        omega
      · rw [if_neg h, if_neg h, ih hw' hnd']

/-! ### Key totals and the window-id invariant. -/

/-- Sum of `request_count` over all rows (active or not) of one
`(agent, provider, model, window_type)` key. -/
def keyReq (db : DB) (agent provider : String) (model : Option String)
    (wt : WType) : Nat :=
  ((db.windows.filter (fun w => w.keyMatch agent provider model wt)).map
    Window.request_count).sum

/-- Sum of `token_count` over all rows of one key. -/
def keyTok (db : DB) (agent provider : String) (model : Option String)
    (wt : WType) : Nat :=
  ((db.windows.filter (fun w => w.keyMatch agent provider model wt)).map
    Window.token_count).sum

/-- Well-formedness provided by the AUTOINCREMENT primary key: window ids
are distinct, and `nextWid` is fresh. -/
def WidInv (db : DB) : Prop :=
  (db.windows.map Window.wid).Nodup ∧ ∀ w ∈ db.windows, w.wid < db.nextWid

/-! ### Frame lemmas: tracker operations only touch `windows`/`nextWid`. -/

/-- All non-window state is unchanged. -/
def sameAux (db db' : DB) : Prop :=
  db'.queue = db.queue ∧ db'.nextQid = db.nextQid ∧ db'.events = db.events ∧
  db'.quotas = db.quotas ∧ db'.configs = db.configs

lemma sameAux_refl (db : DB) : sameAux db db := ⟨rfl, rfl, rfl, rfl, rfl⟩

lemma sameAux_trans {a b c : DB} (h1 : sameAux a b) (h2 : sameAux b c) :
    sameAux a c :=
  ⟨h2.1.trans h1.1, h2.2.1.trans h1.2.1, h2.2.2.1.trans h1.2.2.1,
   h2.2.2.2.1.trans h1.2.2.2.1, h2.2.2.2.2.trans h1.2.2.2.2⟩

lemma createWindow_aux (db : DB) (A P : String) (M : Option String) (wt : WType)
    (now : Nat) : sameAux db (createWindow db A P M wt now).2 :=
  ⟨rfl, rfl, rfl, rfl, rfl⟩

lemma getCurrentWindow_aux (db : DB) (A P : String) (M : Option String) (wt : WType)
    (now : Nat) : sameAux db (getCurrentWindow db A P M wt now).2 := by
  unfold getCurrentWindow
  cases h : pickLatest (activeFor db A P M wt) with
  | none => exact createWindow_aux db A P M wt now
  | some w => exact sameAux_refl db

lemma rotateWindow_aux (db : DB) (old : Window) (now : Nat) :
    sameAux db (rotateWindow db old now).2 :=
  ⟨rfl, rfl, rfl, rfl, rfl⟩

lemma updateWindowCounts_aux (db : DB) (wid t now : Nat) :
    sameAux db (updateWindowCounts db wid t now) :=
  ⟨rfl, rfl, rfl, rfl, rfl⟩

lemma wouldExceedLimit_aux (db : DB) (A P : String) (M : Option String) (wt : WType)
    (now : Nat) : sameAux db (wouldExceedLimit db A P M wt now).2 := by
  unfold wouldExceedLimit
  dsimp only
  split
  · exact sameAux_trans
      (sameAux_trans (getCurrentWindow_aux db A P M wt now) (rotateWindow_aux _ _ _))
      (getCurrentWindow_aux _ A P M wt now)
  · exact getCurrentWindow_aux db A P M wt now

lemma incrementWindow_aux (db : DB) (A P : String) (M : Option String) (wt : WType)
    (now t : Nat) : sameAux db (incrementWindow db A P M wt now t) := by
  unfold incrementWindow
  dsimp only
  split
  · exact sameAux_trans (sameAux_trans
      (sameAux_trans (getCurrentWindow_aux db A P M wt now) (rotateWindow_aux _ _ _))
      (getCurrentWindow_aux _ A P M wt now)) (updateWindowCounts_aux _ _ _ _)
  · exact sameAux_trans (getCurrentWindow_aux db A P M wt now)
      (updateWindowCounts_aux _ _ _ _)

lemma updateTokenCount_aux (db : DB) (A P : String) (M : Option String) (wt : WType)
    (now t : Nat) : sameAux db (updateTokenCount db A P M wt now t) := by
  unfold updateTokenCount
  exact sameAux_trans (getCurrentWindow_aux db A P M wt now) ⟨rfl, rfl, rfl, rfl, rfl⟩

lemma checkHorizons_aux (db : DB) (A P : String) (M : Option String) (now : Nat) :
    sameAux db (checkHorizons db A P M now).2 := by
  unfold checkHorizons
  dsimp only
  split
  · exact wouldExceedLimit_aux db A P M .per_minute now
  split
  · exact sameAux_trans (wouldExceedLimit_aux db A P M .per_minute now)
      (wouldExceedLimit_aux _ A P M .per_hour now)
  split
  all_goals exact sameAux_trans (sameAux_trans (wouldExceedLimit_aux db A P M .per_minute now)
      (wouldExceedLimit_aux _ A P M .per_hour now)) (wouldExceedLimit_aux _ A P M .per_day now)

/-! ### Key-match facts. -/

lemma keyMatch_fields {w : Window} {A P : String} {M : Option String} {wt : WType}
    (h : w.keyMatch A P M wt = true) :
    w.agent_wallet = A ∧ w.provider = P ∧ w.model = M ∧ w.wtype = wt := by
  simp only [Window.keyMatch, Bool.and_eq_true, beq_iff_eq] at h
  exact ⟨h.1.1.1, h.1.1.2, h.1.2, h.2⟩

lemma keyMatch_self_of (w : Window) {A P : String} {M : Option String} {wt : WType}
    (h1 : w.agent_wallet = A) (h2 : w.provider = P) (h3 : w.model = M)
    (h4 : w.wtype = wt) : w.keyMatch A P M wt = true := by
  simp [Window.keyMatch, h1, h2, h3, h4]

lemma keyMatch_false_of_ne {w : Window} {A P A' P' : String} {M M' : Option String}
    {wt wt' : WType} (h : w.keyMatch A P M wt = true)
    (hne : ¬(A' = A ∧ P' = P ∧ M' = M ∧ wt' = wt)) :
    w.keyMatch A' P' M' wt' = false := by
  obtain ⟨h1, h2, h3, h4⟩ := keyMatch_fields h
  rcases Bool.eq_false_or_eq_true (w.keyMatch A' P' M' wt') with ht | hf
  · exfalso
    obtain ⟨g1, g2, g3, g4⟩ := keyMatch_fields ht
    exact hne ⟨by rw [← g1, h1], by rw [← g2, h2], by rw [← g3, h3], by rw [← g4, h4]⟩
  · exact hf

lemma pickStep_mem (acc : Option Window) (w x : Window)
    (h : pickStep acc w = some x) : x = w ∨ acc = some x := by
  cases acc with
  | none =>
    left
    simpa [pickStep] using h.symm
  | some b =>
    simp only [pickStep] at h
    by_cases hb : b.window_start < w.window_start
    · rw [if_pos hb] at h
      left
      exact (Option.some.injEq _ _ ▸ h).symm
    · rw [if_neg hb] at h
      right
      rw [h]

lemma pickLatest_go_mem (ws : List Window) :
    ∀ (acc : Option Window) (x : Window),
      ws.foldl pickStep acc = some x → x ∈ ws ∨ acc = some x := by
  induction ws with
  | nil =>
    intro acc x h
    right
    simpa using h
  | cons a t ih =>
    intro acc x h
    rw [List.foldl_cons] at h
    rcases ih (pickStep acc a) x h with h' | h'
    · exact Or.inl (List.mem_cons_of_mem _ h')
    · rcases pickStep_mem acc a x h' with h'' | h''
      · exact Or.inl (by rw [h'']; exact List.mem_cons_self a t)
      · exact Or.inr h''

lemma pickLatest_mem (ws : List Window) (x : Window)
    (h : pickLatest ws = some x) : x ∈ ws := by
  rcases pickLatest_go_mem ws none x h with h' | h'
  · exact h'
  · exact absurd h' (by simp)

lemma mem_activeFor {db : DB} {A P : String} {M : Option String} {wt : WType}
    {w : Window} (h : w ∈ activeFor db A P M wt) :
    w ∈ db.windows ∧ w.is_active = true ∧ w.keyMatch A P M wt = true := by
  rcases List.mem_filter.mp h with ⟨hm, hp⟩
  simp only [Bool.and_eq_true] at hp
  exact ⟨hm, hp.1, hp.2⟩

lemma createWindow_fst_key (db : DB) (A P : String) (M : Option String) (wt : WType)
    (now : Nat) : (createWindow db A P M wt now).1.keyMatch A P M wt = true := by
  apply keyMatch_self_of <;> rfl

lemma getCurrentWindow_fst_key (db : DB) (A P : String) (M : Option String)
    (wt : WType) (now : Nat) :
    (getCurrentWindow db A P M wt now).1.keyMatch A P M wt = true := by
  unfold getCurrentWindow
  cases h : pickLatest (activeFor db A P M wt) with
  | none => exact createWindow_fst_key db A P M wt now
  | some w => exact (mem_activeFor (pickLatest_mem _ _ h)).2.2

lemma getCurrentWindow_fst_mem (db : DB) (A P : String) (M : Option String)
    (wt : WType) (now : Nat) :
    (getCurrentWindow db A P M wt now).1 ∈ (getCurrentWindow db A P M wt now).2.windows := by
  unfold getCurrentWindow
  cases h : pickLatest (activeFor db A P M wt) with
  | none =>
    show (createWindow db A P M wt now).1 ∈ db.windows ++ [(createWindow db A P M wt now).1]
    exact List.mem_append_right _ (List.mem_singleton.mpr rfl)
  | some w => exact (mem_activeFor (pickLatest_mem _ _ h)).1

/-! ### WidInv preservation. -/

lemma wid_map_of_fix (l : List Window) (f : Window → Window)
    (hf : ∀ x, (f x).wid = x.wid) : (l.map f).map Window.wid = l.map Window.wid := by
  induction l with
  | nil => rfl
  | cons a t ih => rw [List.map_cons, List.map_cons, List.map_cons, hf a, ih]

lemma WidInv_map (db : DB) (f : Window → Window) (hf : ∀ x, (f x).wid = x.wid)
    (h : WidInv db) : WidInv { db with windows := db.windows.map f, nextWid := db.nextWid } := by
  constructor
  · show ((db.windows.map f).map Window.wid).Nodup
    rw [wid_map_of_fix db.windows f hf]
    exact h.1
  · intro w hw
    rcases List.mem_map.mp hw with ⟨x, hx, rfl⟩
    show (f x).wid < db.nextWid
    rw [hf x]
    exact h.2 x hx

lemma WidInv_createWindow (db : DB) (A P : String) (M : Option String) (wt : WType)
    (now : Nat) (h : WidInv db) : WidInv (createWindow db A P M wt now).2 := by
  constructor
  · show ((db.windows ++ [_]).map Window.wid).Nodup
    rw [List.map_append]
    apply List.Nodup.append h.1 (List.nodup_singleton _)
    intro a ha hb
    rcases List.mem_map.mp ha with ⟨x, hx, rfl⟩
    have hlt := h.2 x hx
    simp only [List.map_cons, List.map_nil, List.mem_singleton] at hb
    omega
  · intro w hw
    rcases List.mem_append.mp hw with hw' | hw'
    · have := h.2 w hw'
      show w.wid < db.nextWid + 1
      omega
    · rcases List.mem_singleton.mp hw' with rfl
      show db.nextWid < db.nextWid + 1
      omega

lemma WidInv_getCurrentWindow (db : DB) (A P : String) (M : Option String)
    (wt : WType) (now : Nat) (h : WidInv db) :
    WidInv (getCurrentWindow db A P M wt now).2 := by
  unfold getCurrentWindow
  cases hp : pickLatest (activeFor db A P M wt) with
  | none => exact WidInv_createWindow db A P M wt now h
  | some w => exact h

lemma WidInv_rotateWindow (db : DB) (old : Window) (now : Nat) (h : WidInv db) :
    WidInv (rotateWindow db old now).2 := by
  unfold rotateWindow
  apply WidInv_createWindow
  apply WidInv_map
  · intro x
    by_cases hx : x.wid = old.wid
    · rw [if_pos hx]
    · rw [if_neg hx]
  · exact h

lemma WidInv_updateWindowCounts (db : DB) (wid t now : Nat) (h : WidInv db) :
    WidInv (updateWindowCounts db wid t now) := by
  unfold updateWindowCounts
  apply WidInv_map
  · intro x
    by_cases hx : x.wid = wid
    · rw [if_pos hx]
    · rw [if_neg hx]
  · exact h

lemma WidInv_wouldExceedLimit (db : DB) (A P : String) (M : Option String)
    (wt : WType) (now : Nat) (h : WidInv db) :
    WidInv (wouldExceedLimit db A P M wt now).2 := by
  unfold wouldExceedLimit
  dsimp only
  split
  · exact WidInv_getCurrentWindow _ A P M wt now
      (WidInv_rotateWindow _ _ now (WidInv_getCurrentWindow db A P M wt now h))
  · exact WidInv_getCurrentWindow db A P M wt now h

lemma WidInv_incrementWindow (db : DB) (A P : String) (M : Option String)
    (wt : WType) (now t : Nat) (h : WidInv db) :
    WidInv (incrementWindow db A P M wt now t) := by
  unfold incrementWindow
  dsimp only
  split
  · exact WidInv_updateWindowCounts _ _ t now
      (WidInv_getCurrentWindow _ A P M wt now
        (WidInv_rotateWindow _ _ now (WidInv_getCurrentWindow db A P M wt now h)))
  · exact WidInv_updateWindowCounts _ _ t now (WidInv_getCurrentWindow db A P M wt now h)

lemma WidInv_updateTokenCount (db : DB) (A P : String) (M : Option String)
    (wt : WType) (now t : Nat) (h : WidInv db) :
    WidInv (updateTokenCount db A P M wt now t) := by
  unfold updateTokenCount
  dsimp only
  apply WidInv_map
  · intro x
    by_cases hx : x.wid = (getCurrentWindow db A P M wt now).1.wid
    · rw [if_pos hx]
    · rw [if_neg hx]
  · exact WidInv_getCurrentWindow db A P M wt now h

lemma WidInv_checkHorizons (db : DB) (A P : String) (M : Option String)
    (now : Nat) (h : WidInv db) : WidInv (checkHorizons db A P M now).2 := by
  unfold checkHorizons
  dsimp only
  split
  · exact WidInv_wouldExceedLimit db A P M .per_minute now h
  split
  · dsimp only
    exact WidInv_wouldExceedLimit (wouldExceedLimit db A P M .per_minute now).2 A P M .per_hour now
      (WidInv_wouldExceedLimit db A P M .per_minute now h)
  split
  · dsimp only
    exact WidInv_wouldExceedLimit _ A P M .per_day now
      (WidInv_wouldExceedLimit _ A P M .per_hour now
        (WidInv_wouldExceedLimit db A P M .per_minute now h))
  · dsimp only
    exact WidInv_wouldExceedLimit _ A P M .per_day now
      (WidInv_wouldExceedLimit _ A P M .per_hour now
        (WidInv_wouldExceedLimit db A P M .per_minute now h))

/-! ### Key totals through the tracker operations. -/

lemma keyReq_createWindow (db : DB) (A P : String) (M : Option String) (wt : WType)
    (now : Nat) (A2 P2 : String) (M2 : Option String) (wt2 : WType) :
    keyReq (createWindow db A P M wt now).2 A2 P2 M2 wt2 = keyReq db A2 P2 M2 wt2 := by
  unfold keyReq createWindow
  dsimp only
  rw [List.filter_append, List.map_append, List.sum_append]
  have htail : ∀ w : Window, w.request_count = 0 →
      (([w].filter (fun x => x.keyMatch A2 P2 M2 wt2)).map Window.request_count).sum = 0 := by
    intro w hw
    rw [List.filter_cons]
    by_cases h : w.keyMatch A2 P2 M2 wt2
    · rw [if_pos h, List.filter_nil, List.map_cons, List.map_nil, List.sum_cons,
        List.sum_nil, hw]
      rfl
    · rw [if_neg h, List.filter_nil, List.map_nil, List.sum_nil]
  rw [htail _ rfl, Nat.add_zero]

lemma keyTok_createWindow (db : DB) (A P : String) (M : Option String) (wt : WType)
    (now : Nat) (A2 P2 : String) (M2 : Option String) (wt2 : WType) :
    keyTok (createWindow db A P M wt now).2 A2 P2 M2 wt2 = keyTok db A2 P2 M2 wt2 := by
  unfold keyTok createWindow
  dsimp only
  rw [List.filter_append, List.map_append, List.sum_append]
  have htail : ∀ w : Window, w.token_count = 0 →
      (([w].filter (fun x => x.keyMatch A2 P2 M2 wt2)).map Window.token_count).sum = 0 := by
    intro w hw
    rw [List.filter_cons]
    by_cases h : w.keyMatch A2 P2 M2 wt2
    · rw [if_pos h, List.filter_nil, List.map_cons, List.map_nil, List.sum_cons,
        List.sum_nil, hw]
      rfl
    · rw [if_neg h, List.filter_nil, List.map_nil, List.sum_nil]
  rw [htail _ rfl, Nat.add_zero]

lemma keyReq_getCurrentWindow (db : DB) (A P : String) (M : Option String)
    (wt : WType) (now : Nat) (A2 P2 : String) (M2 : Option String) (wt2 : WType) :
    keyReq (getCurrentWindow db A P M wt now).2 A2 P2 M2 wt2 = keyReq db A2 P2 M2 wt2 := by
  unfold getCurrentWindow
  cases hp : pickLatest (activeFor db A P M wt) with
  | none => exact keyReq_createWindow db A P M wt now A2 P2 M2 wt2
  | some w => rfl

lemma keyTok_getCurrentWindow (db : DB) (A P : String) (M : Option String)
    (wt : WType) (now : Nat) (A2 P2 : String) (M2 : Option String) (wt2 : WType) :
    keyTok (getCurrentWindow db A P M wt now).2 A2 P2 M2 wt2 = keyTok db A2 P2 M2 wt2 := by
  unfold getCurrentWindow
  cases hp : pickLatest (activeFor db A P M wt) with
  | none => exact keyTok_createWindow db A P M wt now A2 P2 M2 wt2
  | some w => rfl

lemma keyReq_rotateWindow (db : DB) (old : Window) (now : Nat)
    (A2 P2 : String) (M2 : Option String) (wt2 : WType) :
    keyReq (rotateWindow db old now).2 A2 P2 M2 wt2 = keyReq db A2 P2 M2 wt2 := by
  unfold rotateWindow
  dsimp only
  rw [keyReq_createWindow]
  unfold keyReq
  dsimp only
  apply sumProj_filter_map_pres
  · intro x
    by_cases hx : x.wid = old.wid
    · rw [if_pos hx]
      rfl
    · rw [if_neg hx]
  · intro x
    by_cases hx : x.wid = old.wid
    · rw [if_pos hx]
    · rw [if_neg hx]

lemma keyTok_rotateWindow (db : DB) (old : Window) (now : Nat)
    (A2 P2 : String) (M2 : Option String) (wt2 : WType) :
    keyTok (rotateWindow db old now).2 A2 P2 M2 wt2 = keyTok db A2 P2 M2 wt2 := by
  unfold rotateWindow
  dsimp only
  rw [keyTok_createWindow]
  unfold keyTok
  dsimp only
  apply sumProj_filter_map_pres
  · intro x
    by_cases hx : x.wid = old.wid
    · rw [if_pos hx]
      rfl
    · rw [if_neg hx]
  · intro x
    by_cases hx : x.wid = old.wid
    · rw [if_pos hx]
    · rw [if_neg hx]

lemma keyReq_wouldExceedLimit (db : DB) (A P : String) (M : Option String)
    (wt : WType) (now : Nat) (A2 P2 : String) (M2 : Option String) (wt2 : WType) :
    keyReq (wouldExceedLimit db A P M wt now).2 A2 P2 M2 wt2 = keyReq db A2 P2 M2 wt2 := by
  unfold wouldExceedLimit
  dsimp only
  split
  · rw [keyReq_getCurrentWindow, keyReq_rotateWindow, keyReq_getCurrentWindow]
  · rw [keyReq_getCurrentWindow]

lemma keyTok_wouldExceedLimit (db : DB) (A P : String) (M : Option String)
    (wt : WType) (now : Nat) (A2 P2 : String) (M2 : Option String) (wt2 : WType) :
    keyTok (wouldExceedLimit db A P M wt now).2 A2 P2 M2 wt2 = keyTok db A2 P2 M2 wt2 := by
  unfold wouldExceedLimit
  dsimp only
  split
  · rw [keyTok_getCurrentWindow, keyTok_rotateWindow, keyTok_getCurrentWindow]
  · rw [keyTok_getCurrentWindow]

lemma keyReq_checkHorizons (db : DB) (A P : String) (M : Option String) (now : Nat)
    (A2 P2 : String) (M2 : Option String) (wt2 : WType) :
    keyReq (checkHorizons db A P M now).2 A2 P2 M2 wt2 = keyReq db A2 P2 M2 wt2 := by
  unfold checkHorizons
  dsimp only
  split
  · dsimp only
    rw [keyReq_wouldExceedLimit]
  split
  · dsimp only
    rw [keyReq_wouldExceedLimit, keyReq_wouldExceedLimit]
  split
  all_goals dsimp only
  all_goals rw [keyReq_wouldExceedLimit, keyReq_wouldExceedLimit, keyReq_wouldExceedLimit]

lemma keyTok_checkHorizons (db : DB) (A P : String) (M : Option String) (now : Nat)
    (A2 P2 : String) (M2 : Option String) (wt2 : WType) :
    keyTok (checkHorizons db A P M now).2 A2 P2 M2 wt2 = keyTok db A2 P2 M2 wt2 := by
  unfold checkHorizons
  dsimp only
  split
  · dsimp only
    rw [keyTok_wouldExceedLimit]
  split
  · dsimp only
    rw [keyTok_wouldExceedLimit, keyTok_wouldExceedLimit]
  split
  all_goals dsimp only
  all_goals rw [keyTok_wouldExceedLimit, keyTok_wouldExceedLimit, keyTok_wouldExceedLimit]

lemma keyReq_updateWindowCounts (db : DB) (w : Window) (t now : Nat)
    (hnd : (db.windows.map Window.wid).Nodup) (hw : w ∈ db.windows)
    (A2 P2 : String) (M2 : Option String) (wt2 : WType) :
    keyReq (updateWindowCounts db w.wid t now) A2 P2 M2 wt2
      = keyReq db A2 P2 M2 wt2 + (if w.keyMatch A2 P2 M2 wt2 then 1 else 0) := by
  unfold keyReq updateWindowCounts
  dsimp only
  exact sumProj_filter_map_single db.windows _ _ _ w 1 hw hnd
    (fun x hx => by rw [if_neg hx]) (by rw [if_pos rfl]; rfl) (by rw [if_pos rfl])

lemma keyTok_updateWindowCounts (db : DB) (w : Window) (t now : Nat)
    (hnd : (db.windows.map Window.wid).Nodup) (hw : w ∈ db.windows)
    (A2 P2 : String) (M2 : Option String) (wt2 : WType) :
    keyTok (updateWindowCounts db w.wid t now) A2 P2 M2 wt2
      = keyTok db A2 P2 M2 wt2 + (if w.keyMatch A2 P2 M2 wt2 then t else 0) := by
  unfold keyTok updateWindowCounts
  dsimp only
  exact sumProj_filter_map_single db.windows _ _ _ w t hw hnd
    (fun x hx => by rw [if_neg hx]) (by rw [if_pos rfl]; rfl) (by rw [if_pos rfl])

lemma keyReq_incrementWindow (db : DB) (A P : String) (M : Option String)
    (wt : WType) (now t : Nat) (hinv : WidInv db)
    (A2 P2 : String) (M2 : Option String) (wt2 : WType) :
    keyReq (incrementWindow db A P M wt now t) A2 P2 M2 wt2
      = keyReq db A2 P2 M2 wt2
        + (if (A2 = A ∧ P2 = P ∧ M2 = M ∧ wt2 = wt) then 1 else 0) := by
  unfold incrementWindow
  dsimp only
  have hsame : ∀ (d : DB), WidInv d →
      keyReq (updateWindowCounts (getCurrentWindow d A P M wt now).2
          (getCurrentWindow d A P M wt now).1.wid t now) A2 P2 M2 wt2
        = keyReq d A2 P2 M2 wt2
          + (if (A2 = A ∧ P2 = P ∧ M2 = M ∧ wt2 = wt) then 1 else 0) := by
    intro d hd
    rw [keyReq_updateWindowCounts _ _ t now (WidInv_getCurrentWindow d A P M wt now hd).1
      (getCurrentWindow_fst_mem d A P M wt now), keyReq_getCurrentWindow]
    by_cases hk : A2 = A ∧ P2 = P ∧ M2 = M ∧ wt2 = wt
    · rcases hk with ⟨h1, h2, h3, h4⟩
      rw [h1, h2, h3, h4,
        if_pos (getCurrentWindow_fst_key d A P M wt now), if_pos ⟨rfl, rfl, rfl, rfl⟩]
    · rw [if_neg (by simp [keyMatch_false_of_ne (getCurrentWindow_fst_key d A P M wt now) hk]),
        if_neg hk]
  split
  · rw [hsame _ (WidInv_rotateWindow _ _ now (WidInv_getCurrentWindow db A P M wt now hinv)),
      keyReq_rotateWindow, keyReq_getCurrentWindow]
  · exact hsame db hinv

lemma keyTok_incrementWindow (db : DB) (A P : String) (M : Option String)
    (wt : WType) (now t : Nat) (hinv : WidInv db)
    (A2 P2 : String) (M2 : Option String) (wt2 : WType) :
    keyTok (incrementWindow db A P M wt now t) A2 P2 M2 wt2
      = keyTok db A2 P2 M2 wt2
        + (if (A2 = A ∧ P2 = P ∧ M2 = M ∧ wt2 = wt) then t else 0) := by
  unfold incrementWindow
  dsimp only
  have hsame : ∀ (d : DB), WidInv d →
      keyTok (updateWindowCounts (getCurrentWindow d A P M wt now).2
          (getCurrentWindow d A P M wt now).1.wid t now) A2 P2 M2 wt2
        = keyTok d A2 P2 M2 wt2
          + (if (A2 = A ∧ P2 = P ∧ M2 = M ∧ wt2 = wt) then t else 0) := by
    intro d hd
    rw [keyTok_updateWindowCounts _ _ t now (WidInv_getCurrentWindow d A P M wt now hd).1
      (getCurrentWindow_fst_mem d A P M wt now), keyTok_getCurrentWindow]
    by_cases hk : A2 = A ∧ P2 = P ∧ M2 = M ∧ wt2 = wt
    · rcases hk with ⟨h1, h2, h3, h4⟩
      rw [h1, h2, h3, h4,
        if_pos (getCurrentWindow_fst_key d A P M wt now), if_pos ⟨rfl, rfl, rfl, rfl⟩]
    · rw [if_neg (by simp [keyMatch_false_of_ne (getCurrentWindow_fst_key d A P M wt now) hk]),
        if_neg hk]
  split
  · rw [hsame _ (WidInv_rotateWindow _ _ now (WidInv_getCurrentWindow db A P M wt now hinv)),
      keyTok_rotateWindow, keyTok_getCurrentWindow]
  · exact hsame db hinv

lemma keyReq_updateTokenCount (db : DB) (A P : String) (M : Option String)
    (wt : WType) (now t : Nat)
    (A2 P2 : String) (M2 : Option String) (wt2 : WType) :
    keyReq (updateTokenCount db A P M wt now t) A2 P2 M2 wt2
      = keyReq db A2 P2 M2 wt2 := by
  unfold updateTokenCount
  dsimp only
  show keyReq { (getCurrentWindow db A P M wt now).2 with windows := _ } A2 P2 M2 wt2 = _
  unfold keyReq
  dsimp only
  rw [sumProj_filter_map_pres]
  · exact keyReq_getCurrentWindow db A P M wt now A2 P2 M2 wt2
  · intro x
    by_cases hx : x.wid = (getCurrentWindow db A P M wt now).1.wid
    · rw [if_pos hx]
      rfl
    · rw [if_neg hx]
  · intro x
    by_cases hx : x.wid = (getCurrentWindow db A P M wt now).1.wid
    · rw [if_pos hx]
    · rw [if_neg hx]

lemma keyTok_updateTokenCount (db : DB) (A P : String) (M : Option String)
    (wt : WType) (now t : Nat) (hinv : WidInv db)
    (A2 P2 : String) (M2 : Option String) (wt2 : WType) :
    keyTok (updateTokenCount db A P M wt now t) A2 P2 M2 wt2
      = keyTok db A2 P2 M2 wt2
        + (if (A2 = A ∧ P2 = P ∧ M2 = M ∧ wt2 = wt) then t else 0) := by
  unfold updateTokenCount
  dsimp only
  show keyTok { (getCurrentWindow db A P M wt now).2 with windows := _ } A2 P2 M2 wt2 = _
  unfold keyTok
  dsimp only
  rw [sumProj_filter_map_single ((getCurrentWindow db A P M wt now).2).windows _ _ _
    (getCurrentWindow db A P M wt now).1 t (getCurrentWindow_fst_mem db A P M wt now)
    (WidInv_getCurrentWindow db A P M wt now hinv).1
    (fun x hx => by rw [if_neg hx]) (by rw [if_pos rfl]; rfl) (by rw [if_pos rfl])]
  have hbase : keyTok (getCurrentWindow db A P M wt now).2 A2 P2 M2 wt2
      = keyTok db A2 P2 M2 wt2 := keyTok_getCurrentWindow db A P M wt now A2 P2 M2 wt2
  unfold keyTok at hbase
  rw [hbase]
  by_cases hk : A2 = A ∧ P2 = P ∧ M2 = M ∧ wt2 = wt
  · rcases hk with ⟨h1, h2, h3, h4⟩
    rw [h1, h2, h3, h4,
      if_pos (getCurrentWindow_fst_key db A P M wt now), if_pos ⟨rfl, rfl, rfl, rfl⟩]
  · rw [if_neg (by simp [keyMatch_false_of_ne (getCurrentWindow_fst_key db A P M wt now) hk]),
      if_neg hk]

/-! ### Claim C1. -/

/-- `v || null` never yields a set zero. -/
lemma jsOrNull_pos (v : Option Nat) (l : Nat) (h : jsOrNull v = some l) : 0 < l := by
  rcases v with _ | n
  · simp [jsOrNull] at h
  · rcases n with _ | m
    · simp [jsOrNull] at h
    · simp [jsOrNull] at h
      omega

/-- Window limits coming out of `getLimitForWindowType` are never a set
zero: the JavaScript `limits[field] || null` collapses `0` to `null`.
Hence every window the tracker creates satisfies the positivity
hypotheses of the C1 theorem. -/
lemma getLimitForWindowType_pos (limits : Limits) (wt : WType) (b : Bool) (l : Nat)
    (h : getLimitForWindowType limits wt b = some l) : 0 < l :=
  jsOrNull_pos _ l h

/-- Claim C1: the would-exceed decision on a window record.  The
positivity hypotheses reflect that set limits are never zero (see
`getLimitForWindowType_pos`); a set limit of zero would be falsy in the
source and is unreachable. -/
theorem C1_checkWindowLimitDetailed (w : Window)
    (hreq : ∀ l, w.limit_requests = some l → 0 < l)
    (htok : ∀ l, w.limit_tokens = some l → 0 < l) :
    ((checkWindowLimitDetailed w).exceeded = true ↔
      ((w.limit_requests.isSome = true ∧ w.limit_requests.getD 0 ≤ w.request_count) ∨
       (w.limit_tokens.isSome = true ∧ w.limit_tokens.getD 0 ≤ w.token_count)))
    ∧ (checkWindowLimitDetailed w).current = w.request_count
    ∧ (checkWindowLimitDetailed w).limit = w.limit_requests.getD 0
    ∧ (checkWindowLimitDetailed w).percentUsed =
        (if 0 < w.limit_requests.getD 0
         then ((w.request_count : ℚ) / ((w.limit_requests.getD 0 : Nat) : ℚ)) * 100
         else 0) := by
  refine ⟨?_, rfl, rfl, rfl⟩
  unfold checkWindowLimitDetailed
  dsimp only
  cases hr : w.limit_requests with
  | none =>
    cases ht : w.limit_tokens with
    | none => simp [limitHit]
    | some lt =>
      have hlt := htok lt ht
      simp only [limitHit, Option.isSome_none, Option.isSome_some, Option.getD_some,
        Bool.false_or, Bool.and_eq_true, bne_iff_ne, ne_eq, decide_eq_true_eq]
      constructor
      · intro h
        exact Or.inr ⟨trivial, h.2⟩
      · rintro (⟨h, _⟩ | ⟨_, h⟩)
        · simp at h
        · exact ⟨by omega, h⟩
  | some lr =>
    have hlr := hreq lr hr
    cases ht : w.limit_tokens with
    | none =>
      simp only [limitHit, Option.isSome_none, Option.isSome_some, Option.getD_some,
        Bool.or_false, Bool.and_eq_true, bne_iff_ne, ne_eq, decide_eq_true_eq]
      constructor
      · intro h
        exact Or.inl ⟨trivial, h.2⟩
      · rintro (⟨_, h⟩ | ⟨h, _⟩)
        · exact ⟨by omega, h⟩
        · simp at h
    | some lt =>
      have hlt := htok lt ht
      simp only [limitHit, Option.isSome_some, Option.getD_some, Bool.or_eq_true,
        Bool.and_eq_true, bne_iff_ne, ne_eq, decide_eq_true_eq]
      constructor
      · rintro (h | h)
        · exact Or.inl ⟨trivial, h.2⟩
        · exact Or.inr ⟨trivial, h.2⟩
      · rintro (⟨_, h⟩ | ⟨_, h⟩)
        · exact Or.inl ⟨by omega, h⟩
        · exact Or.inr ⟨by omega, h⟩

/-- Witness for C1 at the full window `w1c` (50 of 50 requests). -/
theorem C1_checkWindowLimitDetailed_witness :
    ((checkWindowLimitDetailed w1c).exceeded = true ↔
      ((w1c.limit_requests.isSome = true ∧ w1c.limit_requests.getD 0 ≤ w1c.request_count) ∨
       (w1c.limit_tokens.isSome = true ∧ w1c.limit_tokens.getD 0 ≤ w1c.token_count)))
    ∧ (checkWindowLimitDetailed w1c).current = w1c.request_count
    ∧ (checkWindowLimitDetailed w1c).limit = w1c.limit_requests.getD 0
    ∧ (checkWindowLimitDetailed w1c).percentUsed =
        (if 0 < w1c.limit_requests.getD 0
         then ((w1c.request_count : ℚ) / ((w1c.limit_requests.getD 0 : Nat) : ℚ)) * 100
         else 0) :=
  C1_checkWindowLimitDetailed w1c
    (by intro l hl; simp [w1c] at hl; omega)
    (by intro l hl; simp [w1c] at hl; omega)

/-! ### Claim C2. -/

lemma activeFor_createWindow_self (db : DB) (A P : String) (M : Option String)
    (wt : WType) (now : Nat) :
    activeFor (createWindow db A P M wt now).2 A P M wt
      = activeFor db A P M wt ++ [(createWindow db A P M wt now).1] := by
  unfold activeFor createWindow
  dsimp only
  rw [List.filter_append]
  congr 1
  simp [Window.keyMatch]

/-- A window with zero counts can never be exceeded (`0 >= limit` only
for a limit of `0`, which is falsy). -/
lemma checkWindowLimitDetailed_zero (w : Window) (h1 : w.request_count = 0)
    (h2 : w.token_count = 0) :
    (checkWindowLimitDetailed w).exceeded = false ∧
      (checkWindowLimitDetailed w).current = 0 := by
  refine ⟨?_, h1⟩
  unfold checkWindowLimitDetailed
  dsimp only
  rw [h1, h2]
  have hz : ∀ v : Option Nat, limitHit v 0 = false := by
    intro v
    rcases v with _ | n
    · rfl
    · rcases n with _ | m
      · rfl
      · simp [limitHit]
  rw [hz, hz]
  rfl

lemma activeFor_updateWindowCounts (db : DB) (wid t now : Nat) (A P : String)
    (M : Option String) (wt : WType) :
    activeFor (updateWindowCounts db wid t now) A P M wt
      = (activeFor db A P M wt).map (fun x =>
          if x.wid = wid then
            { x with request_count := x.request_count + 1,
                     token_count := x.token_count + t, last_updated := now }
          else x) := by
  unfold activeFor updateWindowCounts
  dsimp only
  apply filter_map_pres
  intro x
  by_cases hid : x.wid = wid
  · rw [if_pos hid]
    rfl
  · rw [if_neg hid]

lemma activeFor_tokenMap (db : DB) (wid t now : Nat) (A P : String)
    (M : Option String) (wt : WType) :
    activeFor { db with windows := db.windows.map (fun x =>
        if x.wid = wid then
          { x with token_count := x.token_count + t, last_updated := now }
        else x) } A P M wt
      = (activeFor db A P M wt).map (fun x =>
          if x.wid = wid then
            { x with token_count := x.token_count + t, last_updated := now }
          else x) := by
  unfold activeFor
  dsimp only
  apply filter_map_pres
  intro x
  by_cases hid : x.wid = wid
  · rw [if_pos hid]
    rfl
  · rw [if_neg hid]

/-- Claim C2 as amended.  With a single active window `w` for the key:
if `now` is STRICTLY past `window_end`, the admission check and the
request increment deactivate the stale row (its counts untouched) and
act on a fresh `[now, now + duration)` window with zero counts; the
post-call token addition, by contrast, performs no rotation: it adds the
tokens to the existing active window, stale or not. -/
theorem C2_rotation_amended (db : DB) (A P : String) (M : Option String)
    (wt : WType) (now t : Nat) (w : Window)
    (hact : activeFor db A P M wt = [w])
    (hfresh : ∀ x ∈ db.windows, x.wid < db.nextWid) :
    (w.window_end < now →
      ((wouldExceedLimit db A P M wt now).1.exceeded = false ∧
       (wouldExceedLimit db A P M wt now).1.current = 0 ∧
       (∃ w2, activeFor (wouldExceedLimit db A P M wt now).2 A P M wt = [w2] ∧
          w2.window_start = now ∧ w2.window_end = now + wt.duration ∧
          w2.request_count = 0 ∧ w2.token_count = 0) ∧
       { w with is_active := false } ∈ (wouldExceedLimit db A P M wt now).2.windows))
    ∧ (w.window_end < now →
      ((∃ w2, activeFor (incrementWindow db A P M wt now t) A P M wt = [w2] ∧
          w2.window_start = now ∧ w2.window_end = now + wt.duration ∧
          w2.request_count = 1 ∧ w2.token_count = t) ∧
       { w with is_active := false } ∈ (incrementWindow db A P M wt now t).windows))
    ∧ activeFor (updateTokenCount db A P M wt now t) A P M wt
        = [{ w with token_count := w.token_count + t, last_updated := now }] := by
  have hwmem : w ∈ activeFor db A P M wt := by
    rw [hact]
    exact List.mem_singleton.mpr rfl
  obtain ⟨hwin, hwact, hwkey⟩ := mem_activeFor hwmem
  obtain ⟨hA, hP, hM, hWT⟩ := keyMatch_fields hwkey
  subst hA hP hM hWT
  have hgcw : getCurrentWindow db w.agent_wallet w.provider w.model w.wtype now
      = (w, db) := by
    unfold getCurrentWindow
    rw [hact]
    rfl
  have hact1 : activeFor { db with windows := db.windows.map (fun x =>
      if x.wid = w.wid then { x with is_active := false } else x) }
        w.agent_wallet w.provider w.model w.wtype = [] := by
    unfold activeFor
    rw [List.filter_eq_nil]
    intro x hx
    rcases List.mem_map.mp hx with ⟨y, hy, rfl⟩
    by_cases hid : y.wid = w.wid
    · rw [if_pos hid]
      simp
    · rw [if_neg hid]
      intro hpy
      exact hid (congrArg Window.wid
        (eq_of_filter_singleton hact y hy hpy))
  have hrot : activeFor (rotateWindow db w now).2
        w.agent_wallet w.provider w.model w.wtype
      = [(rotateWindow db w now).1] := by
    unfold rotateWindow
    dsimp only
    rw [activeFor_createWindow_self, hact1, List.nil_append]
  have hstalemem : { w with is_active := false } ∈ (rotateWindow db w now).2.windows := by
    unfold rotateWindow
    dsimp only
    apply List.mem_append_left
    have hdeact : ({ w with is_active := false } : Window)
        = (fun x => if x.wid = w.wid then { x with is_active := false } else x) w := by
      dsimp only
      rw [if_pos rfl]
    rw [hdeact]
    exact List.mem_map_of_mem _ hwin
  have hgcw2 : getCurrentWindow (rotateWindow db w now).2
        w.agent_wallet w.provider w.model w.wtype now
      = ((rotateWindow db w now).1, (rotateWindow db w now).2) := by
    unfold getCurrentWindow
    rw [hrot]
    rfl
  refine ⟨?_, ?_, ?_⟩
  · intro hstale
    unfold wouldExceedLimit
    dsimp only
    rw [hgcw]
    dsimp only
    rw [if_pos hstale, hgcw2]
    dsimp only
    refine ⟨(checkWindowLimitDetailed_zero _ rfl rfl).1,
      (checkWindowLimitDetailed_zero _ rfl rfl).2,
      ⟨(rotateWindow db w now).1, hrot, rfl, rfl, rfl, rfl⟩, hstalemem⟩
  · intro hstale
    unfold incrementWindow
    dsimp only
    rw [hgcw]
    dsimp only
    rw [if_pos hstale, hgcw2]
    dsimp only
    have hupd : activeFor (updateWindowCounts (rotateWindow db w now).2
          (rotateWindow db w now).1.wid t now)
          w.agent_wallet w.provider w.model w.wtype
        = [{ (rotateWindow db w now).1 with
              request_count := (rotateWindow db w now).1.request_count + 1,
              token_count := (rotateWindow db w now).1.token_count + t,
              last_updated := now }] := by
      rw [activeFor_updateWindowCounts, hrot, List.map_cons, List.map_nil]
      dsimp only
      rw [if_pos rfl]
    constructor
    · exact ⟨_, hupd, rfl, rfl, rfl, Nat.zero_add t⟩
    · show _ ∈ ((updateWindowCounts (rotateWindow db w now).2
          (rotateWindow db w now).1.wid t now)).windows
      unfold updateWindowCounts
      dsimp only
      have hne : ({ w with is_active := false } : Window).wid
          ≠ (rotateWindow db w now).1.wid := by
        show w.wid ≠ db.nextWid
        exact Nat.ne_of_lt (hfresh w hwin)
      have hfix : (fun y => if y.wid = (rotateWindow db w now).1.wid then
          { y with request_count := y.request_count + 1,
                   token_count := y.token_count + t, last_updated := now }
        else y) { w with is_active := false } = { w with is_active := false } := by
        dsimp only
        rw [if_neg hne]
      rw [← hfix]
      exact List.mem_map_of_mem _ hstalemem
  · unfold updateTokenCount
    dsimp only
    rw [hgcw]
    dsimp only
    rw [activeFor_tokenMap, hact, List.map_cons, List.map_nil]
    rw [if_pos rfl]

/-- Witness for the amended C2 at the stale window `w2a`: the admission
check rotates and sees a zero count, and the token update lands on the
stale row. -/
theorem C2_rotation_amended_witness :
    w2a.window_end < 2000 ∧
    (wouldExceedLimit db2a "A" "anthropic" none .per_minute 2000).1.exceeded = false ∧
    activeFor (updateTokenCount db2a "A" "anthropic" none .per_minute 2000 9)
        "A" "anthropic" none .per_minute
      = [{ w2a with token_count := w2a.token_count + 9, last_updated := 2000 }] := by
  have h := C2_rotation_amended db2a "A" "anthropic" none .per_minute 2000 9 w2a
    (by decide) (by intro x hx; rcases List.mem_singleton.mp hx with rfl; decide)
  exact ⟨by decide, (h.1 (by decide)).1, h.2.2⟩

/-- Counterexample to C2 as stated: (a) the post-call token addition is
applied to the stale window itself, which stays active; (b) at
`now = window_end` (so `now >= end`) the admission check does not rotate
and decides on the stale full window. -/
theorem C2_counterexample :
    (w2a.window_end ≤ 2000 ∧
      activeFor (updateTokenCount db2a "A" "anthropic" none .per_minute 2000 7)
          "A" "anthropic" none .per_minute
        = [{ w2a with token_count := 12, last_updated := 2000 }])
    ∧ (w2b.window_end ≤ 1000 ∧
       (wouldExceedLimit db2b "A" "anthropic" none .per_minute 1000).1.exceeded = true ∧
       (wouldExceedLimit db2b "A" "anthropic" none .per_minute 1000).1.current = 50 ∧
       (wouldExceedLimit db2b "A" "anthropic" none .per_minute 1000).2 = db2b) := by
  decide

/-! ### Claims C3 and C10. -/

/-- `checkQuotaAvailable` returns `available = true` on every row. -/
lemma checkQuotaAvailable_available (q : QuotaRow) (now : Nat) :
    (checkQuotaAvailable q now).available = true := by
  unfold checkQuotaAvailable
  dsimp only
  split <;> rfl

lemma recordEvent_kinds (db : DB) (e : Event) :
    (recordEvent db e).events.map Event.event_type
      = db.events.map Event.event_type ++ [e.event_type] := by
  unfold recordEvent
  dsimp only
  rw [List.map_append]
  rfl

lemma enqueue_ok_state (db : DB) (A P : String) (M : Option String)
    (prio : Option Nat) (now : Nat) (qid : Nat) (db' : DB)
    (h : enqueue db A P M prio now = .ok (qid, db')) :
    db'.events = db.events ∧ db'.windows = db.windows ∧ db'.quotas = db.quotas ∧
    db'.configs = db.configs ∧ db'.nextWid = db.nextWid ∧
    ∃ e : QueueEntry, db'.queue = db.queue ++ [e] ∧ e.status = .pending ∧
      e.agent_wallet = A := by
  unfold enqueue at h
  dsimp only at h
  split at h
  · exact absurd h (by simp)
  · split at h
    · exact absurd h (by simp)
    · injection h with hpair
      cases hpair
      exact ⟨rfl, rfl, rfl, rfl, rfl, _, rfl, rfl, rfl⟩

/-- Claim C3 as amended: every pre-call records exactly one persisted
event — `allowed` on admit, `queued` on enqueue, `blocked` on a refusal
without enqueue — EXCEPT the refusal taken when the tenant's queue is
full (and the unreachable quota-unavailable branch), which throws before
any event is recorded. -/
theorem C3_beforeProvider_events (db : DB) (rid P : String) (M : Option String)
    (A : String) (prio : Option Nat) (now : Nat) :
    (beforeProvider db rid P M A prio now).2.events.map Event.event_type
      = db.events.map Event.event_type ++
        (match (beforeProvider db rid P M A prio now).1 with
         | .allowed => [EvKind.allowed]
         | .queuedErr _ => [EvKind.queued]
         | .blockedErr => [EvKind.blocked]
         | .queueFullErr => []
         | .queueDisabledErr => []
         | .quotaExceededErr => []) := by
  have hchkev : (checkHorizons db A P M now).2.events = db.events :=
    (checkHorizons_aux db A P M now).2.2.1
  unfold beforeProvider
  dsimp only
  simp only [checkQuotaAvailable_available, Bool.not_true, Bool.false_eq_true, if_false]
  cases hchk : (checkHorizons db A P M now).1 with
  | none =>
    dsimp only
    have h3 := (incrementWindow_aux (recordEvent (checkHorizons db A P M now).2
      { agent_wallet := A, provider := P, model := M, event_type := .allowed,
        window_type := none, current_count := none, limit_value := none,
        percent_used := none, request_id := some rid, was_queued := false,
        queue_time_ms := none, pattern_detected := none }) A P M .per_minute now 0).2.2.1
    have h4 := (incrementWindow_aux (incrementWindow (recordEvent (checkHorizons db A P M now).2
      { agent_wallet := A, provider := P, model := M, event_type := .allowed,
        window_type := none, current_count := none, limit_value := none,
        percent_used := none, request_id := some rid, was_queued := false,
        queue_time_ms := none, pattern_detected := none }) A P M .per_minute now 0)
      A P M .per_hour now 0).2.2.1
    have h5 := (incrementWindow_aux (incrementWindow (incrementWindow
      (recordEvent (checkHorizons db A P M now).2
      { agent_wallet := A, provider := P, model := M, event_type := .allowed,
        window_type := none, current_count := none, limit_value := none,
        percent_used := none, request_id := some rid, was_queued := false,
        queue_time_ms := none, pattern_detected := none }) A P M .per_minute now 0)
      A P M .per_hour now 0) A P M .per_day now 0).2.2.1
    rw [h5, h4, h3, recordEvent_kinds, hchkev]
  | some pr =>
    rcases pr with ⟨wt, r⟩
    dsimp only
    split
    · split
      · dsimp only
        rw [hchkev, List.append_nil]
      · cases henq : enqueue (checkHorizons db A P M now).2 A P M
            (some (jsPriority prio)) now with
        | error err =>
          cases err <;> dsimp only <;> rw [hchkev, List.append_nil]
        | ok pr2 =>
          rcases pr2 with ⟨qid, db2⟩
          dsimp only
          rw [recordEvent_kinds, (enqueue_ok_state _ _ _ _ _ _ _ _ henq).1, hchkev]
    · dsimp only
      rw [recordEvent_kinds, hchkev]

/-- Counterexample to C3 as stated: a pro tenant whose queue is full
(`max_queue_size` 0) is refused with the queue-full error and the
pre-call records no event at all (the events table stays empty). -/
theorem C3_counterexample :
    (beforeProvider db3c "r1" "anthropic" none "A" none 50000).1 = .queueFullErr ∧
    (beforeProvider db3c "r1" "anthropic" none "A" none 50000).2.events = [] ∧
    db3c.events = [] := by
  decide

/-- Claim C10: the store's quota check returns `available = true`
unconditionally, so the pre-call branch that rejects on an unavailable
quota is unreachable: no pre-call outcome is the quota-exceeded error. -/
theorem C10_quota_always_available :
    (∀ (q : QuotaRow) (now : Nat), (checkQuotaAvailable q now).available = true) ∧
    (∀ (db : DB) (rid P : String) (M : Option String) (A : String)
       (prio : Option Nat) (now : Nat),
      (beforeProvider db rid P M A prio now).1 ≠ BeforeOutcome.quotaExceededErr) := by
  refine ⟨checkQuotaAvailable_available, ?_⟩
  intro db rid P M A prio now
  unfold beforeProvider
  dsimp only
  simp only [checkQuotaAvailable_available, Bool.not_true, Bool.false_eq_true, if_false]
  cases hchk : (checkHorizons db A P M now).1 with
  | none => simp
  | some pr =>
    rcases pr with ⟨wt, r⟩
    dsimp only
    split
    · split
      · simp
      · cases henq : enqueue (checkHorizons db A P M now).2 A P M
            (some (jsPriority prio)) now with
        | error err => cases err <;> simp
        | ok pr2 =>
          rcases pr2 with ⟨qid, db2⟩
          simp
    · simp

/-! ### Claim C6. -/

lemma dequeue_unfold (db : DB) (flt : Option String) (now : Nat) :
    dequeue db flt now
      = match selectBest (db.queue.filter (isCandidate flt)) with
        | none => (none, db)
        | some e =>
          if maxQueueAge < now - e.queued_at then
            dequeue (complete db e.queue_id false (some "Request expired in queue") now)
              flt now
          else
            (some e, { db with queue := db.queue.map (fun x =>
                if x.queue_id = e.queue_id then
                  { x with status := .processing, processed_at := some now }
                else x) }) := by
  show dequeueFuel (Nat.succ (candCount db flt)) db flt now = _
  unfold dequeueFuel
  cases hsel : selectBest (db.queue.filter (isCandidate flt)) with
  | none => rfl
  | some e =>
    dsimp only
    split
    · have hmem := selectBest_mem _ _ hsel
      rcases List.mem_filter.mp hmem with ⟨he, hce⟩
      have hlt := candCount_complete_lt db flt e now he hce
      exact dequeueFuel_irrel flt now _ _ _ (by omega) (by omega)
    · rfl

lemma dequeue_none_step (db : DB) (flt : Option String) (now : Nat)
    (hsel : selectBest (db.queue.filter (isCandidate flt)) = none) :
    dequeue db flt now = (none, db) := by
  rw [dequeue_unfold, hsel]

lemma dequeue_expired_step (db : DB) (flt : Option String) (now : Nat) (e : QueueEntry)
    (hsel : selectBest (db.queue.filter (isCandidate flt)) = some e)
    (hage : maxQueueAge < now - e.queued_at) :
    dequeue db flt now
      = dequeue (complete db e.queue_id false (some "Request expired in queue") now)
          flt now := by
  rw [dequeue_unfold, hsel]
  dsimp only
  rw [if_pos hage]

lemma dequeue_fresh_step (db : DB) (flt : Option String) (now : Nat) (e : QueueEntry)
    (hsel : selectBest (db.queue.filter (isCandidate flt)) = some e)
    (hage : ¬ maxQueueAge < now - e.queued_at) :
    dequeue db flt now
      = (some e, { db with queue := db.queue.map (fun x =>
          if x.queue_id = e.queue_id then
            { x with status := .processing, processed_at := some now }
          else x) }) := by
  rw [dequeue_unfold, hsel]
  dsimp only
  rw [if_neg hage]

lemma dequeueFuel_age (flt : Option String) (now : Nat) :
    ∀ (fuel : Nat) (db : DB) (q : QueueEntry) (db2 : DB),
      dequeueFuel fuel db flt now = (some q, db2) →
      now - q.queued_at ≤ maxQueueAge := by
  intro fuel
  induction fuel with
  | zero =>
    intro db q db2 h
    exact absurd h (by simp [dequeueFuel])
  | succ n ih =>
    intro db q db2 h
    unfold dequeueFuel at h
    revert h
    cases hsel : selectBest (db.queue.filter (isCandidate flt)) with
    | none =>
      intro h
      exact absurd h (by simp)
    | some e =>
      intro h
      dsimp only at h
      by_cases hage : maxQueueAge < now - e.queued_at
      · rw [if_pos hage] at h
        exact ih _ q db2 h
      · rw [if_neg hage] at h
        injection h with h1 h2
        injection h1 with h1
        rw [← h1]
        omega

lemma complete_marks (db : DB) (qid : Nat) (err : Option String) (now : Nat) :
    ∀ x ∈ (complete db qid false err now).queue, x.queue_id = qid →
      x.status = QStatus.failed ∧ x.error = err := by
  intro x hx hid
  unfold complete at hx
  dsimp only at hx
  rcases List.mem_map.mp hx with ⟨y, hy, rfl⟩
  by_cases h : y.queue_id = qid
  · rw [if_pos h]
    exact ⟨rfl, rfl⟩
  · rw [if_neg h] at hid ⊢
    exact absurd hid h

/-- Claim C6: an over-age pending entry is failed with the expiry reason
and dequeue then moves on to the next eligible entry; a dequeue never
returns an entry whose age exceeds `maxQueueAge`. -/
theorem C6_dequeue_expiry (db : DB) (flt : Option String) (now : Nat) :
    (∀ e : QueueEntry, selectBest (db.queue.filter (isCandidate flt)) = some e →
      maxQueueAge < now - e.queued_at →
      (dequeue db flt now
        = dequeue (complete db e.queue_id false (some "Request expired in queue") now)
            flt now) ∧
      (∀ x ∈ (complete db e.queue_id false (some "Request expired in queue") now).queue,
        x.queue_id = e.queue_id →
        x.status = QStatus.failed ∧ x.error = some "Request expired in queue"))
    ∧ (∀ (q : QueueEntry) (db2 : DB), dequeue db flt now = (some q, db2) →
        now - q.queued_at ≤ maxQueueAge) := by
  constructor
  · intro e hsel hage
    exact ⟨dequeue_expired_step db flt now e hsel hage,
      complete_marks db e.queue_id (some "Request expired in queue") now⟩
  · intro q db2 h
    exact dequeueFuel_age flt now _ db q db2 h

/-- Witness for C6 at `db6w`: the expired entry `e6old` is selected
first, failed as expired, and the dequeue returns the fresh `e6new`
whose age is within bounds. -/
theorem C6_dequeue_expiry_witness :
    selectBest (db6w.queue.filter (isCandidate none)) = some e6old ∧
    maxQueueAge < 2000000 - e6old.queued_at ∧
    (dequeue db6w none 2000000
      = dequeue (complete db6w e6old.queue_id false (some "Request expired in queue") 2000000)
          none 2000000) ∧
    (dequeue db6w none 2000000).1 = some e6new ∧
    2000000 - e6new.queued_at ≤ maxQueueAge := by
  have h := (C6_dequeue_expiry db6w none 2000000).1 e6old (by decide) (by decide)
  exact ⟨by decide, by decide, h.1, by decide, by decide⟩

/-! ### Claim C4. -/

lemma dequeueFuel_state (flt : Option String) (now : Nat) :
    ∀ (fuel : Nat) (db : DB),
      (dequeueFuel fuel db flt now).2.windows = db.windows ∧
      (dequeueFuel fuel db flt now).2.events = db.events ∧
      (dequeueFuel fuel db flt now).2.quotas = db.quotas ∧
      (dequeueFuel fuel db flt now).2.configs = db.configs ∧
      (dequeueFuel fuel db flt now).2.nextWid = db.nextWid := by
  intro fuel
  induction fuel with
  | zero =>
    intro db
    exact ⟨rfl, rfl, rfl, rfl, rfl⟩
  | succ n ih =>
    intro db
    unfold dequeueFuel
    cases hsel : selectBest (db.queue.filter (isCandidate flt)) with
    | none => exact ⟨rfl, rfl, rfl, rfl, rfl⟩
    | some e =>
      dsimp only
      split
      · exact ih _
      · exact ⟨rfl, rfl, rfl, rfl, rfl⟩

lemma dequeue_state (db : DB) (flt : Option String) (now : Nat) :
    (dequeue db flt now).2.windows = db.windows ∧
    (dequeue db flt now).2.events = db.events ∧
    (dequeue db flt now).2.quotas = db.quotas ∧
    (dequeue db flt now).2.configs = db.configs ∧
    (dequeue db flt now).2.nextWid = db.nextWid :=
  dequeueFuel_state flt now _ db

lemma dequeue_processing_mem (flt : Option String) (now : Nat) :
    ∀ (fuel : Nat) (db : DB) (q : QueueEntry) (db2 : DB),
      dequeueFuel fuel db flt now = (some q, db2) →
      ({ q with status := QStatus.processing, processed_at := some now } : QueueEntry)
        ∈ db2.queue := by
  intro fuel
  induction fuel with
  | zero =>
    intro db q db2 h
    exact absurd h (by simp [dequeueFuel])
  | succ n ih =>
    intro db q db2 h
    unfold dequeueFuel at h
    revert h
    cases hsel : selectBest (db.queue.filter (isCandidate flt)) with
    | none =>
      intro h
      exact absurd h (by simp)
    | some e =>
      intro h
      dsimp only at h
      by_cases hage : maxQueueAge < now - e.queued_at
      · rw [if_pos hage] at h
        exact ih _ q db2 h
      · rw [if_neg hage] at h
        injection h with h1 h2
        injection h1 with h1
        subst h1
        subst h2
        show _ ∈ List.map _ db.queue
        have he : e ∈ db.queue :=
          (List.mem_filter.mp (selectBest_mem _ _ hsel)).1
        have hfe : ({ e with status := QStatus.processing, processed_at := some now }
            : QueueEntry)
            = (fun x => if x.queue_id = e.queue_id then
                { x with status := QStatus.processing, processed_at := some now }
              else x) e := by
          dsimp only
          rw [if_pos rfl]
        rw [hfe]
        exact List.mem_map_of_mem _ he

lemma keyReq_eq_of_windows (db db2 : DB) (h : db2.windows = db.windows)
    (A P : String) (M : Option String) (wt : WType) :
    keyReq db2 A P M wt = keyReq db A P M wt := by
  unfold keyReq
  rw [h]

lemma WidInv_of_eq (db db2 : DB) (hw : db2.windows = db.windows)
    (hn : db2.nextWid = db.nextWid) (h : WidInv db) : WidInv db2 := by
  unfold WidInv at h ⊢
  rw [hw, hn]
  exact h

lemma drainLoop_succ_eq (db : DB) (n now : Nat) :
    drainLoop db (Nat.succ n) now
      = (match (dequeue db none now).1 with
         | none => (dequeue db none now).2
         | some q =>
           if !(wouldExceedLimit (dequeue db none now).2 q.agent_wallet q.provider
               q.model .per_minute now).1.exceeded then
             drainLoop (drainAdmit (dequeue db none now).2 q now) n now
           else
             drainRepend (dequeue db none now).2 q now) := rfl

lemma drainLoop_admit_step (db db1 : DB) (n now : Nat) (q : QueueEntry)
    (hdq : dequeue db none now = (some q, db1))
    (hex : (wouldExceedLimit db1 q.agent_wallet q.provider q.model
      .per_minute now).1.exceeded = false) :
    drainLoop db (n + 1) now = drainLoop (drainAdmit db1 q now) n now := by
  show drainLoop db (Nat.succ n) now = _
  rw [drainLoop_succ_eq, hdq]
  dsimp only
  rw [hex]
  simp

lemma drainLoop_repend_step (db db1 : DB) (n now : Nat) (q : QueueEntry)
    (hdq : dequeue db none now = (some q, db1))
    (hex : (wouldExceedLimit db1 q.agent_wallet q.provider q.model
      .per_minute now).1.exceeded = true) :
    drainLoop db (n + 1) now = drainRepend db1 q now := by
  show drainLoop db (Nat.succ n) now = _
  rw [drainLoop_succ_eq, hdq]
  dsimp only
  rw [hex]
  simp

lemma keyReq_drainAdmit (db1 : DB) (q : QueueEntry) (now : Nat)
    (hinv1 : WidInv db1) (wt : WType) :
    keyReq (drainAdmit db1 q now) q.agent_wallet q.provider q.model wt
      = keyReq db1 q.agent_wallet q.provider q.model wt + 1 := by
  unfold drainAdmit
  have h2 : (complete (wouldExceedLimit db1 q.agent_wallet q.provider q.model
      .per_minute now).2 q.queue_id true none now).windows
      = (wouldExceedLimit db1 q.agent_wallet q.provider q.model
        .per_minute now).2.windows := rfl
  have hinvc : WidInv (complete (wouldExceedLimit db1 q.agent_wallet q.provider q.model
      .per_minute now).2 q.queue_id true none now) :=
    WidInv_of_eq _ _ h2 rfl
      (WidInv_wouldExceedLimit db1 q.agent_wallet q.provider q.model .per_minute now hinv1)
  have hbase : keyReq (complete (wouldExceedLimit db1 q.agent_wallet q.provider q.model
      .per_minute now).2 q.queue_id true none now) q.agent_wallet q.provider q.model wt
      = keyReq db1 q.agent_wallet q.provider q.model wt := by
    rw [keyReq_eq_of_windows _ _ h2, keyReq_wouldExceedLimit]
  rw [keyReq_incrementWindow _ _ _ _ _ _ _
    (WidInv_incrementWindow _ _ _ _ _ _ _
      (WidInv_incrementWindow _ _ _ _ _ _ _ hinvc))]
  rw [keyReq_incrementWindow _ _ _ _ _ _ _
    (WidInv_incrementWindow _ _ _ _ _ _ _ hinvc)]
  rw [keyReq_incrementWindow _ _ _ _ _ _ _ hinvc]
  rw [hbase]
  rcases wt with _ | _ | _
  · rw [if_pos ⟨rfl, rfl, rfl, rfl⟩, if_neg (by simp), if_neg (by simp)]
  · rw [if_neg (by simp), if_pos ⟨rfl, rfl, rfl, rfl⟩, if_neg (by simp)]
  · rw [if_neg (by simp), if_neg (by simp), if_pos ⟨rfl, rfl, rfl, rfl⟩]

/-- Claim C4 as amended: the drain loop runs at most 5 iterations; each
iteration dequeues the globally best pending entry — possibly belonging
to a DIFFERENT tenant than the post-calling one; when the entry's minute
check passes it is marked completed with its retry count unchanged and
the three horizons of ITS key are pre-incremented; otherwise it is set
back to pending (retry count unchanged) and the loop stops. -/
theorem C4_processQueue_amended :
    (∀ (db : DB) (A : String) (now : Nat),
      processQueue db A now
        = (if getQueueSize db A = 0 then db
           else drainLoop db (min 5 (getQueueSize db A)) now) ∧
      min 5 (getQueueSize db A) ≤ 5)
    ∧ (∀ (db db1 : DB) (n now : Nat) (q : QueueEntry),
        dequeue db none now = (some q, db1) →
        (wouldExceedLimit db1 q.agent_wallet q.provider q.model
          .per_minute now).1.exceeded = false →
        WidInv db →
        drainLoop db (n + 1) now = drainLoop (drainAdmit db1 q now) n now ∧
        (∃ x ∈ (drainAdmit db1 q now).queue, x.queue_id = q.queue_id ∧
          x.status = QStatus.completed ∧ x.retry_count = q.retry_count) ∧
        (∀ wt : WType, keyReq (drainAdmit db1 q now) q.agent_wallet q.provider q.model wt
          = keyReq db q.agent_wallet q.provider q.model wt + 1))
    ∧ (∀ (db db1 : DB) (n now : Nat) (q : QueueEntry),
        dequeue db none now = (some q, db1) →
        (wouldExceedLimit db1 q.agent_wallet q.provider q.model
          .per_minute now).1.exceeded = true →
        drainLoop db (n + 1) now = drainRepend db1 q now ∧
        (∃ x ∈ (drainRepend db1 q now).queue, x.queue_id = q.queue_id ∧
          x.status = QStatus.pending ∧ x.retry_count = q.retry_count)) := by
  refine ⟨?_, ?_, ?_⟩
  · intro db A now
    exact ⟨rfl, Nat.min_le_left 5 _⟩
  · intro db db1 n now q hdq hex hinv
    have hx0 : ({ q with status := QStatus.processing, processed_at := some now }
        : QueueEntry) ∈ db1.queue := by
      have := dequeue_processing_mem none now _ db q db1 hdq
      exact this
    have hqwel : (wouldExceedLimit db1 q.agent_wallet q.provider q.model
        .per_minute now).2.queue = db1.queue :=
      (wouldExceedLimit_aux db1 q.agent_wallet q.provider q.model .per_minute now).1
    refine ⟨drainLoop_admit_step db db1 n now q hdq hex, ?_, ?_⟩
    · have hq6 : (drainAdmit db1 q now).queue
          = (complete (wouldExceedLimit db1 q.agent_wallet q.provider q.model
              .per_minute now).2 q.queue_id true none now).queue := by
        unfold drainAdmit
        rw [(incrementWindow_aux _ q.agent_wallet q.provider q.model .per_day now 0).1,
          (incrementWindow_aux _ q.agent_wallet q.provider q.model .per_hour now 0).1,
          (incrementWindow_aux _ q.agent_wallet q.provider q.model .per_minute now 0).1]
      rw [hq6]
      show ∃ x ∈ List.map _ ((wouldExceedLimit db1 q.agent_wallet q.provider q.model
        .per_minute now).2.queue), _
      rw [hqwel]
      refine ⟨_, List.mem_map_of_mem _ hx0, ?_, ?_, ?_⟩
      · rw [if_pos rfl]
      · rw [if_pos rfl]
        rfl
      · rw [if_pos rfl]
        rfl
    · intro wt
      have hwin1 : db1.windows = db.windows := by
        have h := (dequeue_state db none now).1
        rw [hdq] at h
        exact h
      have hnext1 : db1.nextWid = db.nextWid := by
        have h := (dequeue_state db none now).2.2.2.2
        rw [hdq] at h
        exact h
      have hinv1 : WidInv db1 := WidInv_of_eq db db1 hwin1 hnext1 hinv
      rw [keyReq_drainAdmit db1 q now hinv1 wt]
      congr 1
      apply keyReq_eq_of_windows
      have := (dequeue_state db none now).1
      rw [hdq] at this
      exact this
  · intro db db1 n now q hdq hex
    have hx0 : ({ q with status := QStatus.processing, processed_at := some now }
        : QueueEntry) ∈ db1.queue := dequeue_processing_mem none now _ db q db1 hdq
    have hqwel : (wouldExceedLimit db1 q.agent_wallet q.provider q.model
        .per_minute now).2.queue = db1.queue :=
      (wouldExceedLimit_aux db1 q.agent_wallet q.provider q.model .per_minute now).1
    refine ⟨drainLoop_repend_step db db1 n now q hdq hex, ?_⟩
    show ∃ x ∈ List.map _ ((wouldExceedLimit db1 q.agent_wallet q.provider q.model
      .per_minute now).2.queue), _
    rw [hqwel]
    refine ⟨_, List.mem_map_of_mem _ hx0, ?_, ?_, ?_⟩
    · rw [if_pos rfl]
    · rw [if_pos rfl]
    · rw [if_pos rfl]

/-- Witness for the amended C4 at `db4c`: the drain for tenant `A`
dequeues `B`'s higher-priority entry, completes it with its retry count
unchanged, and increments `B`'s minute key. -/
theorem C4_processQueue_amended_witness :
    min 5 (getQueueSize db4c "A") ≤ 5 ∧
    drainLoop db4c (0 + 1) 1000 = drainLoop (drainAdmit db4c1 eB 1000) 0 1000 ∧
    (∃ x ∈ (drainAdmit db4c1 eB 1000).queue, x.queue_id = eB.queue_id ∧
      x.status = QStatus.completed ∧ x.retry_count = eB.retry_count) ∧
    keyReq (drainAdmit db4c1 eB 1000) eB.agent_wallet eB.provider eB.model .per_minute
      = keyReq db4c eB.agent_wallet eB.provider eB.model .per_minute + 1 := by
  have h := C4_processQueue_amended
  have hb := h.2.1 db4c db4c1 0 1000 eB (by decide) (by decide) ⟨by decide, by decide⟩
  exact ⟨(h.1 db4c "A" 1000).2, hb.1, hb.2.1, hb.2.2 .per_minute⟩

/-- Counterexample to C4 as stated: processing tenant `A`'s queue
dequeues and completes tenant `B`'s entry (the globally best candidate)
while `A`'s own entry stays pending — the drained entry does not belong
to the post-calling tenant. -/
theorem C4_counterexample :
    eB.agent_wallet ≠ "A" ∧
    (processQueue db4c "A" 1000).queue.map (fun e => (e.queue_id, e.agent_wallet, e.status))
      = [(1, "A", QStatus.pending), (2, "B", QStatus.completed)] := by
  decide

/-! ### Claim C5. -/

lemma getQueueSize_append (db : DB) (e : QueueEntry) (A : String) (nq : Nat)
    (he : e.agent_wallet = A) (hs : e.status = QStatus.pending) :
    getQueueSize { db with queue := db.queue ++ [e], nextQid := nq } A
      = getQueueSize db A + 1 := by
  unfold getQueueSize
  dsimp only
  rw [List.filter_append, List.length_append]
  congr 1
  rw [List.filter_cons]
  rw [if_pos (by simp [he, hs])]
  rfl

/-- Claim C5: enqueue fails with QueueDisabled exactly when the
effective tier lacks may-queue; with the capability present it fails
with QueueFull exactly when the pending count has reached
`max_queue_size`; otherwise it inserts exactly one new pending entry,
and the pending count stays within `max_queue_size`. -/
theorem C5_enqueue_spec (db : DB) (A P : String) (M : Option String)
    (prio : Option Nat) (now : Nat) :
    (enqueue db A P M prio now = .error .queueDisabled ↔
      (checkQuotaAvailable (getQuota db A) now).can_queue = false)
    ∧ ((checkQuotaAvailable (getQuota db A) now).can_queue = true →
        (enqueue db A P M prio now = .error .queueFull ↔
          (checkQuotaAvailable (getQuota db A) now).max_queue_size ≤ getQueueSize db A))
    ∧ ((checkQuotaAvailable (getQuota db A) now).can_queue = true →
        getQueueSize db A < (checkQuotaAvailable (getQuota db A) now).max_queue_size →
        ∃ qid db2, enqueue db A P M prio now = .ok (qid, db2) ∧
          (∃ e : QueueEntry, db2.queue = db.queue ++ [e] ∧ e.status = QStatus.pending ∧
            e.agent_wallet = A ∧ e.retry_count = 0 ∧ e.max_retries = defaultMaxRetries ∧
            e.priority = prio.getD defaultPriority) ∧
          getQueueSize db2 A = getQueueSize db A + 1 ∧
          getQueueSize db2 A ≤ (checkQuotaAvailable (getQuota db A) now).max_queue_size) := by
  by_cases hq : (checkQuotaAvailable (getQuota db A) now).can_queue
  · have hq' : (!(checkQuotaAvailable (getQuota db A) now).can_queue) = false := by
      rw [hq]
      rfl
    by_cases hcap : (checkQuotaAvailable (getQuota db A) now).max_queue_size
        ≤ getQueueSize db A
    · refine ⟨?_, ?_, ?_⟩
      · constructor
        · intro h
          unfold enqueue at h
          dsimp only at h
          rw [hq'] at h
          simp only [Bool.false_eq_true, if_false] at h
          rw [if_pos hcap] at h
          exact absurd h (by simp)
        · intro h
          rw [h] at hq
          simp at hq
      · intro _
        constructor
        · intro _
          exact hcap
        · intro _
          unfold enqueue
          dsimp only
          rw [hq']
          simp only [Bool.false_eq_true, if_false]
          rw [if_pos hcap]
      · intro _ hlt
        omega
    · refine ⟨?_, ?_, ?_⟩
      · constructor
        · intro h
          unfold enqueue at h
          dsimp only at h
          rw [hq'] at h
          simp only [Bool.false_eq_true, if_false] at h
          rw [if_neg hcap] at h
          exact absurd h (by simp)
        · intro h
          rw [h] at hq
          simp at hq
      · intro _
        constructor
        · intro h
          unfold enqueue at h
          dsimp only at h
          rw [hq'] at h
          simp only [Bool.false_eq_true, if_false] at h
          rw [if_neg hcap] at h
          exact absurd h (by simp)
        · intro h
          exact absurd h hcap
      · intro _ _
        refine ⟨db.nextQid,
          { db with
            queue := db.queue ++
              [{ queue_id := db.nextQid, agent_wallet := A, provider := P, model := M,
                 priority := prio.getD defaultPriority, retry_count := 0,
                 max_retries := defaultMaxRetries, status := QStatus.pending,
                 queued_at := now, processed_at := none, error := none }],
            nextQid := db.nextQid + 1 }, ?_, ?_, ?_, ?_⟩
        · unfold enqueue
          dsimp only
          rw [hq']
          simp only [Bool.false_eq_true, if_false]
          rw [if_neg hcap]
        · exact ⟨_, rfl, rfl, rfl, rfl, rfl, rfl⟩
        · rw [getQueueSize_append db _ A _ rfl rfl]
        · rw [getQueueSize_append db _ A _ rfl rfl]
          omega
  · have hq0 : (checkQuotaAvailable (getQuota db A) now).can_queue = false := by
      rcases Bool.eq_false_or_eq_true ((checkQuotaAvailable (getQuota db A) now).can_queue)
        with h | h
      · exact absurd h hq
      · exact h
    have hq' : (!(checkQuotaAvailable (getQuota db A) now).can_queue) = true := by
      rw [hq0]
      rfl
    refine ⟨?_, ?_, ?_⟩
    · constructor
      · intro _
        exact hq0
      · intro _
        unfold enqueue
        dsimp only
        rw [hq']
        rfl
    · intro h
      exact absurd h hq
    · intro h
      exact absurd h hq

/-- Witness for C5 at `db5w` (pro tenant, empty queue): the enqueue
succeeds, inserting one pending entry, and the pending count stays
within the queue bound. -/
theorem C5_enqueue_spec_witness :
    (checkQuotaAvailable (getQuota db5w "A") 1000).can_queue = true ∧
    getQueueSize db5w "A" < (checkQuotaAvailable (getQuota db5w "A") 1000).max_queue_size ∧
    ∃ qid db2, enqueue db5w "A" "anthropic" none none 1000 = .ok (qid, db2) ∧
      (∃ e : QueueEntry, db2.queue = db5w.queue ++ [e] ∧ e.status = QStatus.pending ∧
        e.agent_wallet = "A" ∧ e.retry_count = 0 ∧ e.max_retries = defaultMaxRetries ∧
        e.priority = (none : Option Nat).getD defaultPriority) ∧
      getQueueSize db2 "A" = getQueueSize db5w "A" + 1 ∧
      getQueueSize db2 "A" ≤ (checkQuotaAvailable (getQuota db5w "A") 1000).max_queue_size :=
  ⟨by decide, by decide,
    (C5_enqueue_spec db5w "A" "anthropic" none none 1000).2.2 (by decide) (by decide)⟩

/-! ### Claim C7. -/

lemma keyTok_eq_of_windows (db db2 : DB) (h : db2.windows = db.windows)
    (A P : String) (M : Option String) (wt : WType) :
    keyTok db2 A P M wt = keyTok db A P M wt := by
  unfold keyTok
  rw [h]

lemma keyReq_recordEvent (db : DB) (e : Event) (A P : String) (M : Option String)
    (wt : WType) : keyReq (recordEvent db e) A P M wt = keyReq db A P M wt := rfl

lemma keyTok_recordEvent (db : DB) (e : Event) (A P : String) (M : Option String)
    (wt : WType) : keyTok (recordEvent db e) A P M wt = keyTok db A P M wt := rfl

lemma WidInv_recordEvent (db : DB) (e : Event) (h : WidInv db) :
    WidInv (recordEvent db e) := h

lemma getQueueSize_eq_of_queue (db db2 : DB) (h : db2.queue = db.queue) (A : String) :
    getQueueSize db2 A = getQueueSize db A := by
  unfold getQueueSize
  rw [h]

lemma processQueue_empty (db : DB) (A : String) (now : Nat)
    (h : getQueueSize db A = 0) : processQueue db A now = db := by
  unfold processQueue
  dsimp only
  rw [if_pos h]

/-- On the admit path, `beforeProvider` ends by recording the allowed
event and pre-incrementing the three horizons of the caller's key. -/
lemma beforeProvider_allowed_state (db : DB) (rid P : String) (M : Option String)
    (A : String) (prio : Option Nat) (now : Nat)
    (h : (beforeProvider db rid P M A prio now).1 = BeforeOutcome.allowed) :
    (beforeProvider db rid P M A prio now).2
      = incrementWindow (incrementWindow (incrementWindow
          (recordEvent (checkHorizons db A P M now).2
            { agent_wallet := A, provider := P, model := M, event_type := .allowed,
              window_type := none, current_count := none, limit_value := none,
              percent_used := none, request_id := some rid, was_queued := false,
              queue_time_ms := none, pattern_detected := none })
          A P M .per_minute now 0) A P M .per_hour now 0) A P M .per_day now 0 := by
  unfold beforeProvider at h ⊢
  dsimp only at h ⊢
  simp only [checkQuotaAvailable_available, Bool.not_true, Bool.false_eq_true,
    if_false] at h ⊢
  revert h
  cases hchk : (checkHorizons db A P M now).1 with
  | none =>
    dsimp only
    intro _
    rfl
  | some pr =>
    rcases pr with ⟨wt, r⟩
    dsimp only
    intro h
    split at h
    · split at h
      · simp at h
      · split at h <;> simp at h
    · simp at h

lemma afterProvider_true_state (db : DB) (P : String) (M : Option String)
    (A : String) (t now : Nat)
    (hsk : (checkQuotaAvailable (getQuota db A) now).can_queue = false ∨
      getQueueSize db A = 0) :
    afterProvider db P M A true t now
      = updateTokenCount (updateTokenCount (updateTokenCount db A P M
          .per_minute now t) A P M .per_hour now t) A P M .per_day now t := by
  have hq3 : (updateTokenCount (updateTokenCount (updateTokenCount db A P M
      .per_minute now t) A P M .per_hour now t) A P M .per_day now t).quotas
      = db.quotas := by
    rw [(updateTokenCount_aux _ A P M .per_day now t).2.2.2.1,
      (updateTokenCount_aux _ A P M .per_hour now t).2.2.2.1,
      (updateTokenCount_aux db A P M .per_minute now t).2.2.2.1]
  have hqu3 : (updateTokenCount (updateTokenCount (updateTokenCount db A P M
      .per_minute now t) A P M .per_hour now t) A P M .per_day now t).queue
      = db.queue := by
    rw [(updateTokenCount_aux _ A P M .per_day now t).1,
      (updateTokenCount_aux _ A P M .per_hour now t).1,
      (updateTokenCount_aux db A P M .per_minute now t).1]
  have hgq : getQuota (updateTokenCount (updateTokenCount (updateTokenCount db A P M
      .per_minute now t) A P M .per_hour now t) A P M .per_day now t) A
      = getQuota db A := by
    unfold getQuota
    rw [hq3]
  unfold afterProvider
  simp only [Bool.not_true, Bool.false_eq_true, if_false]
  rw [hgq]
  by_cases hc : (((checkQuotaAvailable (getQuota db A) now).tier == "pro")
      && (checkQuotaAvailable (getQuota db A) now).can_queue) = true
  · rw [if_pos hc]
    rcases hsk with hcq | hqs
    · exfalso
      simp only [Bool.and_eq_true] at hc
      rw [hcq] at hc
      exact absurd hc.2 (by simp)
    · exact processQueue_empty _ A now
        ((getQueueSize_eq_of_queue db _ hqu3 A).trans hqs)
  · rw [if_neg hc]

/-- Claim C7 as amended: (a) the admit path of the pre-call raises the
caller key's request total by exactly one per horizon and leaves its
token totals unchanged; (b) the token update touches only `token_count`
and `last_updated` of the current window, leaving every other row, the
queue and the events untouched; (c) the post-call raises the key's token
total by exactly the tokens used per horizon and — PROVIDED the drain
performs no work (no queuing right or an empty queue) — leaves every
request total unchanged.  (Without that proviso the claim fails: the
post-call drain of a pro tenant pre-increments request counts, see the
counterexample.) -/
theorem C7_post_call_amended :
    (∀ (db : DB) (rid P : String) (M : Option String) (A : String)
        (prio : Option Nat) (now : Nat),
      WidInv db →
      (beforeProvider db rid P M A prio now).1 = BeforeOutcome.allowed →
      ∀ wt : WType,
        keyReq (beforeProvider db rid P M A prio now).2 A P M wt
          = keyReq db A P M wt + 1 ∧
        keyTok (beforeProvider db rid P M A prio now).2 A P M wt
          = keyTok db A P M wt)
  ∧ (∀ (db : DB) (A P : String) (M : Option String) (wt : WType) (now t : Nat)
        (w : Window),
      activeFor db A P M wt = [w] →
      (updateTokenCount db A P M wt now t).windows.length = db.windows.length ∧
      { w with token_count := w.token_count + t, last_updated := now }
        ∈ (updateTokenCount db A P M wt now t).windows ∧
      (∀ x ∈ db.windows, x.wid ≠ w.wid →
        x ∈ (updateTokenCount db A P M wt now t).windows) ∧
      (updateTokenCount db A P M wt now t).queue = db.queue ∧
      (updateTokenCount db A P M wt now t).events = db.events)
  ∧ (∀ (db : DB) (P : String) (M : Option String) (A : String) (t now : Nat),
      WidInv db →
      ((checkQuotaAvailable (getQuota db A) now).can_queue = false ∨
        getQueueSize db A = 0) →
      ∀ wt : WType,
        keyTok (afterProvider db P M A true t now) A P M wt
          = keyTok db A P M wt + t ∧
        keyReq (afterProvider db P M A true t now) A P M wt
          = keyReq db A P M wt) := by
  refine ⟨?_, ?_, ?_⟩
  · intro db rid P M A prio now hinv hall wt
    rw [beforeProvider_allowed_state db rid P M A prio now hall]
    constructor
    · rw [keyReq_incrementWindow _ _ _ _ _ _ _
          (WidInv_incrementWindow _ _ _ _ _ _ _
            (WidInv_incrementWindow _ _ _ _ _ _ _
              (WidInv_recordEvent _ _ (WidInv_checkHorizons db A P M now hinv)))),
        keyReq_incrementWindow _ _ _ _ _ _ _
          (WidInv_incrementWindow _ _ _ _ _ _ _
            (WidInv_recordEvent _ _ (WidInv_checkHorizons db A P M now hinv))),
        keyReq_incrementWindow _ _ _ _ _ _ _
          (WidInv_recordEvent _ _ (WidInv_checkHorizons db A P M now hinv)),
        keyReq_recordEvent, keyReq_checkHorizons]
      rcases wt with _ | _ | _
      · rw [if_pos ⟨rfl, rfl, rfl, rfl⟩, if_neg (by simp), if_neg (by simp)]
      · rw [if_neg (by simp), if_pos ⟨rfl, rfl, rfl, rfl⟩, if_neg (by simp)]
      · rw [if_neg (by simp), if_neg (by simp), if_pos ⟨rfl, rfl, rfl, rfl⟩]
    · rw [keyTok_incrementWindow _ _ _ _ _ _ _
          (WidInv_incrementWindow _ _ _ _ _ _ _
            (WidInv_incrementWindow _ _ _ _ _ _ _
              (WidInv_recordEvent _ _ (WidInv_checkHorizons db A P M now hinv)))),
        keyTok_incrementWindow _ _ _ _ _ _ _
          (WidInv_incrementWindow _ _ _ _ _ _ _
            (WidInv_recordEvent _ _ (WidInv_checkHorizons db A P M now hinv))),
        keyTok_incrementWindow _ _ _ _ _ _ _
          (WidInv_recordEvent _ _ (WidInv_checkHorizons db A P M now hinv)),
        keyTok_recordEvent, keyTok_checkHorizons]
      simp only [ite_self, Nat.add_zero]
  · intro db A P M wt now t w hact
    have hgcw : getCurrentWindow db A P M wt now = (w, db) := by
      unfold getCurrentWindow
      rw [hact]
      rfl
    have hwmem : w ∈ db.windows := by
      have h1 : w ∈ activeFor db A P M wt := by
        rw [hact]
        exact List.mem_singleton.mpr rfl
      unfold activeFor at h1
      exact (List.mem_filter.mp h1).1
    have hupd : updateTokenCount db A P M wt now t
        = { db with windows := db.windows.map (fun x =>
            if x.wid = w.wid then
              { x with token_count := x.token_count + t, last_updated := now }
            else x) } := by
      unfold updateTokenCount
      rw [hgcw]
    refine ⟨?_, ?_, ?_, ?_, ?_⟩
    · rw [hupd]
      simp
    · rw [hupd]
      dsimp only
      have hmem := List.mem_map_of_mem (fun x =>
        if x.wid = w.wid then
          { x with token_count := x.token_count + t, last_updated := now }
        else x) hwmem
      dsimp only at hmem
      rw [if_pos rfl] at hmem
      exact hmem
    · intro x hx hne
      rw [hupd]
      dsimp only
      have hmem := List.mem_map_of_mem (fun y =>
        if y.wid = w.wid then
          { y with token_count := y.token_count + t, last_updated := now }
        else y) hx
      dsimp only at hmem
      rw [if_neg hne] at hmem
      exact hmem
    · rw [hupd]
    · rw [hupd]
  · intro db P M A t now hinv hsk wt
    rw [afterProvider_true_state db P M A t now hsk]
    constructor
    · rw [keyTok_updateTokenCount _ _ _ _ _ _ _
          (WidInv_updateTokenCount _ _ _ _ _ _ _
            (WidInv_updateTokenCount _ _ _ _ _ _ _ hinv)),
        keyTok_updateTokenCount _ _ _ _ _ _ _
          (WidInv_updateTokenCount _ _ _ _ _ _ _ hinv),
        keyTok_updateTokenCount _ _ _ _ _ _ _ hinv]
      rcases wt with _ | _ | _
      · rw [if_pos ⟨rfl, rfl, rfl, rfl⟩, if_neg (by simp), if_neg (by simp)]
        omega
      · rw [if_neg (by simp), if_pos ⟨rfl, rfl, rfl, rfl⟩, if_neg (by simp)]
        omega
      · rw [if_neg (by simp), if_neg (by simp), if_pos ⟨rfl, rfl, rfl, rfl⟩]
        omega
    · rw [keyReq_updateTokenCount, keyReq_updateTokenCount, keyReq_updateTokenCount]

/-- Witness for C7: part (a) at the empty store (fresh tenant is
admitted and its per-minute request total becomes 1), part (b) at the
single stale window `w2a`, part (c) at the free-tenant store `db7w`. -/
theorem C7_post_call_amended_witness :
    (WidInv db9c ∧
      (beforeProvider db9c "r1" "anthropic" none "A" none 1000).1
        = BeforeOutcome.allowed ∧
      keyReq (beforeProvider db9c "r1" "anthropic" none "A" none 1000).2
          "A" "anthropic" none .per_minute
        = keyReq db9c "A" "anthropic" none .per_minute + 1) ∧
    (activeFor db2a "A" "anthropic" none .per_minute = [w2a] ∧
      { w2a with token_count := w2a.token_count + 7, last_updated := 500 }
        ∈ (updateTokenCount db2a "A" "anthropic" none .per_minute 500 7).windows) ∧
    (getQueueSize db7w "A" = 0 ∧
      keyTok (afterProvider db7w "anthropic" none "A" true 9 2000)
          "A" "anthropic" none .per_day
        = keyTok db7w "A" "anthropic" none .per_day + 9) :=
  ⟨⟨⟨by decide, by decide⟩, by decide,
    (C7_post_call_amended.1 db9c "r1" "anthropic" none "A" none 1000
      ⟨by decide, by decide⟩ (by decide) .per_minute).1⟩,
   ⟨by decide,
    (C7_post_call_amended.2.1 db2a "A" "anthropic" none .per_minute 500 7 w2a
      (by decide)).2.1⟩,
   ⟨by decide,
    (C7_post_call_amended.2.2 db7w "anthropic" none "A" 9 2000
      ⟨by decide, by decide⟩ (Or.inr (by decide)) .per_day).1⟩⟩

/-- Counterexample to C7 as stated: for a pro tenant with a pending
queue entry, the post-call's drain pre-increments the request counts —
after `afterProvider` every window of the key (including the two windows
the drain creates) carries `request_count` 1, though the pre-existing
window `w7` had 0 and the post-call was supposed to leave request counts
unchanged. -/
theorem C7_counterexample :
    (afterProvider db7c "anthropic" none "A" true 7 1000).windows.map
        (fun x => (x.wid, x.request_count)) = [(1, 1), (2, 1), (3, 1)] ∧
    w7.request_count = 0 := by
  decide

/-! ### Claim C8. -/

/-- Claim C8 as amended: the detector's `storePattern` is a PLAIN INSERT
keyed on a freshly generated random id — it always appends one new row
(observation count 1) and never refreshes an existing one.  The
upsert-on-pattern-id behaviour the claim describes exists only in the
storage layer's `upsertPattern`, which does refresh a matching row in
place, bumping its observation count and `last_observed`; the detector
does not call it. -/
theorem C8_pattern_persistence_amended :
    (∀ (tbl : List PatternRow) (gid : Nat) (A : String) (p : PatternData),
      (storePattern tbl gid A p).length = tbl.length + 1 ∧
      (∀ r ∈ tbl, r ∈ storePattern tbl gid A p) ∧
      ∃ r : PatternRow, storePattern tbl gid A p = tbl ++ [r] ∧
        r.pattern_id = gid ∧ r.agent_wallet = some A ∧
        r.pattern_type = p.pattern_type ∧ r.observation_count = 1)
  ∧ (∀ (tbl : List PatternRow) (d : UpsertPatternData) (now : Nat)
        (r : PatternRow), r ∈ tbl → r.pattern_id = d.pattern_id →
      (upsertPattern tbl d now).length = tbl.length ∧
      ∃ r2 ∈ upsertPattern tbl d now,
        r2.pattern_id = d.pattern_id ∧
        r2.observation_count = r.observation_count + 1 ∧
        r2.last_observed = some now) := by
  refine ⟨?_, ?_⟩
  · intro tbl gid A p
    refine ⟨?_, ?_, ?_⟩
    · unfold storePattern
      simp
    · intro r hr
      unfold storePattern
      exact List.mem_append_left _ hr
    · exact ⟨_, rfl, rfl, rfl, rfl, rfl⟩
  · intro tbl d now r hr hid
    have hany : tbl.any (fun x => x.pattern_id == d.pattern_id) = true := by
      apply List.any_eq_true.mpr
      exact ⟨r, hr, by simp [hid]⟩
    constructor
    · unfold upsertPattern
      dsimp only
      rw [if_pos hany]
      simp
    · unfold upsertPattern
      dsimp only
      rw [if_pos hany]
      refine ⟨_, List.mem_map_of_mem _ hr, ?_, ?_, ?_⟩
      · dsimp only
        rw [if_pos hid]
        exact hid
      · dsimp only
        rw [if_pos hid]
      · dsimp only
        rw [if_pos hid]

/-- Witness for C8: storing the detected pattern `p0` twice into an
empty table, and upserting `u8` over the stored row `r8` that shares its
pattern id. -/
theorem C8_pattern_persistence_amended_witness :
    ((storePattern [] 0 "A" p0).length = ([] : List PatternRow).length + 1 ∧
      ∃ r : PatternRow, storePattern [] 0 "A" p0 = [] ++ [r] ∧
        r.pattern_id = 0 ∧ r.agent_wallet = some "A" ∧
        r.pattern_type = p0.pattern_type ∧ r.observation_count = 1) ∧
    (r8 ∈ [r8] ∧ r8.pattern_id = u8.pattern_id) ∧
    ((upsertPattern [r8] u8 99).length = [r8].length ∧
      ∃ r2 ∈ upsertPattern [r8] u8 99,
        r2.pattern_id = u8.pattern_id ∧
        r2.observation_count = r8.observation_count + 1 ∧
        r2.last_observed = some 99) :=
  ⟨⟨(C8_pattern_persistence_amended.1 [] 0 "A" p0).1,
    (C8_pattern_persistence_amended.1 [] 0 "A" p0).2.2⟩,
   ⟨List.mem_singleton_self r8, by decide⟩,
   C8_pattern_persistence_amended.2 [r8] u8 99 r8 (List.mem_singleton_self r8) (by decide)⟩

/-- Counterexample to C8 as stated: running the detector's persistence
twice for the same tenant and pattern type (with the two fresh random
ids 0 and 1) leaves TWO stored rows, both with observation count 1 —
the second run inserts an additional row instead of refreshing the
first. -/
theorem C8_counterexample :
    (storePattern (storePattern [] 0 "A" p0) 1 "A" p0).length = 2 ∧
    (storePattern (storePattern [] 0 "A" p0) 1 "A" p0).map
        (fun r => (r.agent_wallet, r.pattern_type, r.observation_count))
      = [(some "A", "burst", 1), (some "A", "burst", 1)] := by
  decide

/-! ### Claim C9. -/

lemma getDefaultLimits_unknown (provider tier : String)
    (h1 : provider ≠ "anthropic") (h2 : provider ≠ "openai")
    (h3 : provider ≠ "google") :
    getDefaultLimits provider tier = anthropicFree := by
  unfold getDefaultLimits
  dsimp only
  rw [if_neg h1, if_neg h2, if_neg h3]
  rfl

/-- Claim C9 as amended: an unknown provider does NOT surface an
invalid-input error — the default table's `|| defaults.anthropic.free`
fallback substitutes the anthropic free limits, and the limit resolution
(absent any stored configuration row for the provider) silently performs
the admission decision under them. -/
theorem C9_unknown_provider_amended :
    (∀ provider tier : String,
      provider ≠ "anthropic" → provider ≠ "openai" → provider ≠ "google" →
      getDefaultLimits provider tier = anthropicFree)
  ∧ (∀ (db : DB) (A provider : String) (M : Option String) (now : Nat),
      provider ≠ "anthropic" → provider ≠ "openai" → provider ≠ "google" →
      (∀ c ∈ db.configs, c.provider ≠ provider) →
      getLimits db A provider M now = anthropicFree) := by
  constructor
  · exact getDefaultLimits_unknown
  · intro db A provider M now h1 h2 h3 hcfg
    unfold getLimits
    dsimp only
    have hprov : db.configs.find? (fun c => c.provider == provider && c.model == none
        && c.tier == (checkQuotaAvailable (getQuota db A) now).tier) = none := by
      apply List.find?_eq_none.mpr
      intro c hc hpc
      simp only [Bool.and_eq_true, beq_iff_eq] at hpc
      exact hcfg c hc hpc.1.1
    cases M with
    | none =>
      dsimp only
      rw [hprov]
      exact getDefaultLimits_unknown provider _ h1 h2 h3
    | some m =>
      dsimp only
      have hmod : db.configs.find? (fun c => c.provider == provider && c.model == some m
          && c.tier == (checkQuotaAvailable (getQuota db A) now).tier) = none := by
        apply List.find?_eq_none.mpr
        intro c hc hpc
        simp only [Bool.and_eq_true, beq_iff_eq] at hpc
        exact hcfg c hc hpc.1.1
      rw [hmod]
      dsimp only
      rw [hprov]
      exact getDefaultLimits_unknown provider _ h1 h2 h3

/-- Witness for C9 at the provider "mistral" over the empty store: both
the default table and the full limit resolution yield the anthropic free
limits. -/
theorem C9_unknown_provider_amended_witness :
    ("mistral" ≠ "anthropic" ∧ "mistral" ≠ "openai" ∧ "mistral" ≠ "google" ∧
      (∀ c ∈ db9c.configs, c.provider ≠ "mistral")) ∧
    getDefaultLimits "mistral" "free" = anthropicFree ∧
    getLimits db9c "A" "mistral" none 1000 = anthropicFree :=
  ⟨⟨by decide, by decide, by decide, by decide⟩,
   C9_unknown_provider_amended.1 "mistral" "free" (by decide) (by decide) (by decide),
   C9_unknown_provider_amended.2 db9c "A" "mistral" none 1000 (by decide) (by decide)
     (by decide) (by decide)⟩

/-- Counterexample to C9 as stated: a pre-call for the unknown provider
"mistral" raises no error at all — it is ADMITTED, and the windows it
creates carry the anthropic free request limits (50 per minute, none per
hour, 1000 per day). -/
theorem C9_counterexample :
    (beforeProvider db9c "r1" "mistral" none "A" none 1000).1
      = BeforeOutcome.allowed ∧
    (beforeProvider db9c "r1" "mistral" none "A" none 1000).2.windows.map
        (fun w => (w.provider, w.wtype, w.limit_requests))
      = [("mistral", WType.per_minute, some 50), ("mistral", WType.per_hour, none),
         ("mistral", WType.per_day, some 1000)] ∧
    getDefaultLimits "mistral" "free" = anthropicFree := by
  decide

end RLM
